import Mathlib

/-!
Verification of the sudoku state engine implemented in `src/engine/datamodule.c`.

The C module is shallowly embedded: the `cell_info` / `house_info` / state
structs become Lean structures over `Nat` / `Int`, the mutating C functions
become pure functions returning the updated state (paired with the raised
error, when the C function can raise after partial mutation), and machine
integers become `Nat` with explicit masking where 16-bit wraparound matters.
Where a theorem compares the code against the specification's description,
a second definition whose name contains `Spec` follows the spec's words.
-/

set_option maxRecDepth 10000

namespace Sudoku

/-- NUMROWS from datamodule.c. -/
def NUMROWS : Nat := 9

/-- GRIDSIZE from datamodule.c. -/
def GRIDSIZE : Nat := 81

/-- TERMS (0x01FF), the 9-bit candidate mask, from datamodule.c. -/
def TERMS : Nat := 511

/-- ERRORBIT (0x8000): set in `ci_value` when the cell is unsolved. -/
def ERRORBIT : Nat := 32768

/-- The `count_ones` bit-counting routine from datamodule.c, used to fill the
`isizes` table (`isizes[i] = count_ones(i)` for `i < 512`). -/
def count_ones (u : Nat) : Nat :=
  let uCount := u - ((u >>> 1) &&& 0o33333333333) - ((u >>> 2) &&& 0o11111111111)
  ((uCount + (uCount >>> 3)) &&& 0o30707070707) % 63

/-- Number of digits present in a 9-bit candidate mask: the size of the
candidate set it denotes. -/
def maskSize (m : Nat) : Nat :=
  ((List.range 9).filter (fun i => m.testBit i)).length

/-- On the 9-bit range actually stored in the `isizes` table, `count_ones`
agrees with the number of set bits. -/
theorem count_ones_eq_maskSize : ∀ m, m < 512 → count_ones m = maskSize m := by decide

/- CandidateSet pickle support (claim C6). -/

/-- `data_CandidateSet___getstate___impl`: pickling a CandidateSet produces the
pair `(cs_set, cs_iterpos)`. -/
def cs_getstate (cs_set : Nat) (cs_iterpos : Int) : Int × Int :=
  ((cs_set : Int), cs_iterpos)

/-- The validation performed by `data_CandidateSet___setstate__` (lines
479-483): a state pair `(x, y)` is accepted unless `x >= NUMROWS`, `x < 0`,
or `y < 0`. -/
def cs_setstate_ok (x y : Int) : Bool :=
  !(decide (9 ≤ x) || decide (x < 0) || decide (y < 0))

/-- Claim C6 (code bug): `__setstate__` is claimed to accept exactly the pairs
with `mask < 512` and `iter_pos ∈ 0..9`.  The code instead bounds the mask by
`NUMROWS = 9` and puts no upper bound on the iteration position, so the pair
`(16, 0)` emitted by `__getstate__` for the singleton set `{4}` is rejected
even though the mask fits in 9 bits, while `(3, 1000)` is accepted even though
`1000` is not a valid iteration position. -/
theorem cs_setstate_validation_is_wrong :
    cs_setstate_ok (cs_getstate 16 0).1 (cs_getstate 16 0).2 = false ∧
    (0 ≤ (16 : Int) ∧ (16 : Int) < 512 ∧ 0 ≤ (0 : Int) ∧ (0 : Int) ≤ 9) ∧
    cs_setstate_ok 3 1000 = true ∧ ¬((1000 : Int) ≤ 9) := by decide

/- State construction digit validation (claim C3). -/

/-- The clue-digit validation in `data_State___init___impl` (line 997): a clue
value `cl` is rejected exactly when `cl < 0` or `cl > NUMROWS`.  With
`NUMROWS = 9` this lets the out-of-range digit `9` through. -/
def init_clue_ok (cl : Int) : Bool :=
  !(decide (cl < 0) || decide (cl > 9))

/-- Claim C3 (code bug): the constructor is claimed to fail for every clue
digit outside `0..8`, but the off-by-one comparison `cl > NUMROWS` accepts the
digit `9`, which the module's own docstring (`numbers in range(9)`) excludes,
and which then indexes `ss_digits[9]` out of bounds. -/
theorem init_accepts_digit_nine :
    init_clue_ok 9 = true ∧ ¬(0 ≤ (9 : Int) ∧ (9 : Int) ≤ 8) ∧
    init_clue_ok 10 = false ∧ init_clue_ok (-1) = false := by decide

/- State pickling (claim C5). -/

/-- The format-string scanner of CPython's `Py_BuildValue` (`countformat` in
`Python/modsupport.c`), specialized to a top-level scan whose end character is
the terminating NUL: returns `none` (a `SystemError`) when the string ends
while a bracket is still open, otherwise the number of top-level format units.
`level` is kept as an `Int` exactly as in C. -/
def countformat : List Char → Int → Nat → Option Nat
  | [], level, count => if 0 < level then none else some count
  | c :: rest, level, count =>
    if c = '(' ∨ c = '[' ∨ c = '\x7b' then
      countformat rest (level + 1) (if level = 0 then count + 1 else count)
    else if c = ')' ∨ c = ']' ∨ c = '\x7d' then
      countformat rest (level - 1) count
    else if c = '#' ∨ c = '&' ∨ c = ',' ∨ c = ':' ∨ c = ' ' ∨ c = '\t' then
      countformat rest level count
    else
      countformat rest level (if level = 0 then count + 1 else count)

/-- The format string passed to `Py_BuildValue` by `data_State___reduce___impl`
(line 2498).  Note the missing final closing parenthesis. -/
def reduceFormat : List Char :=
  ['(', 'O', '(', 'O', 'O', 'O', ')', '(', 'O', 'O', 'O', ')']

/-- Claim C5 (code bug): the snapshot round trip can never even start, because
the `Py_BuildValue` format string used by `__reduce__` has an unmatched opening
parenthesis, so every pickling attempt fails with `SystemError` before a
snapshot is produced. -/
theorem reduce_format_is_unmatched : countformat reduceFormat 0 0 = none := by decide

/- The state data model. -/

/-- The `cell_info` struct: `ci_group` (index of the cell's box house),
`ci_value` (a uint16 in which ERRORBIT is set when the cell is unsolved) and
`ci_candidates` (the 9-bit candidate mask). -/
structure CellInfo where
  group : Nat
  value : Nat
  cands : Nat
  deriving DecidableEq, Repr

/-- The `house_info` struct: `hi_solved` and the 9-entry `hi_cand_count`
vector.  The borrowed `hi_keyset` pointer is configuration data that none of
the verified operations read, and is omitted. -/
structure HouseInfo where
  solved : Int
  candCount : List Int
  deriving DecidableEq, Repr

/-- The fields of SudokuStateObject that the verified operations touch:
`ss_solved`, `ss_digits`, `ss_skeys`, `ss_houses` (27 entries: boxes at
offsets 0-8, columns at 9-17, rows at 18-26) and `ss_grid` (81 cells in
row-major order). -/
structure SState where
  solvedTotal : Int
  digits : List Int
  skeys : List (Nat × Nat)
  houses : List HouseInfo
  grid : List CellInfo
  deriving DecidableEq, Repr

/-- A cell as produced by `set_defaults`: unsolved, empty mask. -/
def defaultCell : CellInfo := ⟨0, ERRORBIT, 0⟩

/-- A house as produced by zeroing the houses array. -/
def defaultHouse : HouseInfo := ⟨0, List.replicate 9 0⟩

/-- CELL macro family: read the cell at coordinates `(x, y)`
(`INDEX(x, y) = x*9 + y`). -/
def cellAt (s : SState) (x y : Nat) : CellInfo :=
  s.grid.getD (x * 9 + y) defaultCell

/-- CELL_CANDS. -/
def candsAt (s : SState) (x y : Nat) : Nat := (cellAt s x y).cands

/-- CELL_VALUE. -/
def valueAt (s : SState) (x y : Nat) : Nat := (cellAt s x y).value

/-- CELL_FILLED: a cell is solved when ERRORBIT is clear in its value. -/
def cellFilled (c : CellInfo) : Bool := c.value &&& ERRORBIT == 0

/-- Solved test at coordinates. -/
def filledAt (s : SState) (x y : Nat) : Bool := cellFilled (cellAt s x y)

/-- One slot of a house's `hi_cand_count` vector. -/
def candCountAt (s : SState) (h d : Nat) : Int :=
  (s.houses.getD h defaultHouse).candCount.getD d 0

/-- A house's `hi_solved` counter. -/
def solvedAt (s : SState) (h : Nat) : Int :=
  (s.houses.getD h defaultHouse).solved

/-- The bit test `set & (1 << i)` used throughout the C code. -/
def testBit (set i : Nat) : Bool := set &&& (1 <<< i) != 0

/-- One `hi_cand_count[d] += δ` update on house `h`. -/
def adjCand (s : SState) (h d : Nat) (δ : Int) : SState :=
  let hi := s.houses.getD h defaultHouse
  { s with houses :=
      s.houses.set h { hi with candCount := hi.candCount.set d (hi.candCount.getD d 0 + δ) } }

/-- The loop body shared by `house_adjust_cand_count_up` (δ = 1) and
`house_adjust_cand_count_down` (δ = -1): when bit `i` of `set` is set, adjust
the cell's row house (`x + ROWOFFSET`), column house (`y + COLOFFSET`) and box
house (CELL_GROUP). -/
def adjStep (δ : Int) (x y : Nat) (set : Nat) (t : SState) (i : Nat) : SState :=
  if testBit set i then
    adjCand (adjCand (adjCand t (x + 18) i δ) (y + 9) i δ) (cellAt t x y).group i δ
  else t

/-- `house_adjust_cand_count_up` (δ = 1) / `house_adjust_cand_count_down`
(δ = -1) from datamodule.c: the loop over digits 0..8. -/
def houseAdjustCand (δ : Int) (s : SState) (x y : Nat) (set : Nat) : SState :=
  (List.range 9).foldl (adjStep δ x y set) s

/-- Overwrite the candidate mask of the cell at `(x, y)`. -/
def setCellCands (s : SState) (x y : Nat) (v : Nat) : SState :=
  let c := s.grid.getD (x * 9 + y) defaultCell
  { s with grid := s.grid.set (x * 9 + y) { c with cands := v } }

/-- Structural well-formedness of the embedded state: the C arrays have their
fixed sizes, every group index points at a box house, and candidate masks
occupy only the low 9 bits. -/
def WF (s : SState) : Prop :=
  s.grid.length = 81 ∧ s.houses.length = 27 ∧
  (∀ c ∈ s.grid, c.group < 9 ∧ c.cands ≤ 511) ∧
  (∀ hi ∈ s.houses, hi.candCount.length = 9)

lemma houseInfo_eq {a b : HouseInfo} (h1 : a.solved = b.solved)
    (h2 : a.candCount = b.candCount) : a = b := by
  cases a; cases b; simp_all

lemma cellInfo_eq {a b : CellInfo} (h1 : a.group = b.group)
    (h2 : a.value = b.value) (h3 : a.cands = b.cands) : a = b := by
  cases a; cases b; simp_all

lemma defaultHouse_candCount_length : defaultHouse.candCount.length = 9 := by
  simp [defaultHouse]

lemma getD_houses_candCount_length (s : SState) (hW : WF s) (h : Nat) :
    (s.houses.getD h defaultHouse).candCount.length = 9 := by
  rcases Nat.lt_or_ge h s.houses.length with hh | hh
  · rw [List.getD_eq_getElem _ _ hh]
    exact hW.2.2.2 _ (s.houses.getElem_mem hh)
  · rw [List.getD_eq_getElem?_getD, List.getElem?_eq_none hh]
    exact defaultHouse_candCount_length

lemma getD_set_self {α} (l : List α) (i : Nat) (a d : α) (h : i < l.length) :
    (l.set i a).getD i d = a := by
  rw [List.getD_eq_getElem?_getD, List.getElem?_set]
  simp [h]

lemma getD_set_ne {α} (l : List α) {i j : Nat} (a d : α) (h : i ≠ j) :
    (l.set i a).getD j d = l.getD j d := by
  rw [List.getD_eq_getElem?_getD, List.getElem?_set, if_neg h, ← List.getD_eq_getElem?_getD]

/-- Effect of a single `adjCand` on the cand-count observations. -/
lemma candCountAt_adjCand (s : SState) (hW : WF s) {h d : Nat}
    (hh : h < 27) (hd : d < 9) (h' d' : Nat) (δ : Int) :
    candCountAt (adjCand s h d δ) h' d' =
      candCountAt s h' d' + (if h' = h ∧ d' = d then δ else 0) := by
  have hlen : s.houses.length = 27 := hW.2.1
  have hcc : (s.houses.getD h defaultHouse).candCount.length = 9 :=
    getD_houses_candCount_length s hW h
  unfold candCountAt adjCand
  by_cases hhh : h' = h
  · subst hhh
    rw [getD_set_self _ _ _ _ (by omega)]
    by_cases hdd : d' = d
    · subst hdd
      simp only []
      rw [getD_set_self _ _ _ _ (by omega)]
      simp
    · simp only []
      rw [getD_set_ne _ _ _ (fun he => hdd he.symm)]
      simp [hdd]
  · rw [getD_set_ne _ _ _ (fun he => hhh he.symm)]
    have hne : ¬(h' = h ∧ d' = d) := fun hc => hhh hc.1
    simp [hne]

/-- `adjCand` does not touch `hi_solved`. -/
lemma solvedAt_adjCand (s : SState) (h d : Nat) (δ : Int) (h' : Nat) :
    solvedAt (adjCand s h d δ) h' = solvedAt s h' := by
  unfold solvedAt adjCand
  simp only [List.getD_eq_getElem?_getD, List.getElem?_set]
  by_cases hhh : h = h'
  · subst hhh
    by_cases hlt : h < s.houses.length
    · simp [hlt, List.getElem?_eq_getElem hlt]
    · simp [hlt, List.getElem?_eq_none (Nat.le_of_not_lt hlt)]
  · simp [hhh]

lemma grid_adjCand (s : SState) (h d : Nat) (δ : Int) :
    (adjCand s h d δ).grid = s.grid := rfl

lemma WF_adjCand (s : SState) (hW : WF s) (h d : Nat) (δ : Int) :
    WF (adjCand s h d δ) := by
  obtain ⟨h1, h2, h3, h4⟩ := hW
  refine ⟨h1, by simpa [adjCand] using h2, h3, ?_⟩
  intro hi hmem
  rcases List.mem_or_eq_of_mem_set hmem with hmem' | rfl
  · exact h4 _ hmem'
  · simpa using getD_houses_candCount_length s ⟨h1, h2, h3, h4⟩ h

lemma cellAt_congr {s t : SState} (h : t.grid = s.grid) (x y : Nat) :
    cellAt t x y = cellAt s x y := by
  unfold cellAt
  rw [h]

lemma group_lt (t : SState) (hW : WF t) (x y : Nat) : (cellAt t x y).group < 9 := by
  unfold cellAt
  rcases Nat.lt_or_ge (x * 9 + y) t.grid.length with hlt | hge
  · rw [List.getD_eq_getElem _ _ hlt]
    exact (hW.2.2.1 _ (t.grid.getElem_mem hlt)).1
  · rw [List.getD_eq_getElem?_getD, List.getElem?_eq_none hge]
    simp [defaultCell]

lemma cands_le (t : SState) (hW : WF t) (x y : Nat) : candsAt t x y ≤ 511 := by
  unfold candsAt cellAt
  rcases Nat.lt_or_ge (x * 9 + y) t.grid.length with hlt | hge
  · rw [List.getD_eq_getElem _ _ hlt]
    exact (hW.2.2.1 _ (t.grid.getElem_mem hlt)).2
  · rw [List.getD_eq_getElem?_getD, List.getElem?_eq_none hge]
    simp [defaultCell]

lemma grid_adjStep (δ : Int) (x y set : Nat) (t : SState) (i : Nat) :
    (adjStep δ x y set t i).grid = t.grid := by
  unfold adjStep
  split <;> rfl

lemma WF_adjStep (δ : Int) (x y set : Nat) (t : SState) (hW : WF t) (i : Nat) :
    WF (adjStep δ x y set t i) := by
  unfold adjStep
  split
  · exact WF_adjCand _ (WF_adjCand _ (WF_adjCand _ hW _ _ _) _ _ _) _ _ _
  · exact hW

lemma solvedAt_adjStep (δ : Int) (x y set : Nat) (t : SState) (i h' : Nat) :
    solvedAt (adjStep δ x y set t i) h' = solvedAt t h' := by
  unfold adjStep
  split
  · rw [solvedAt_adjCand, solvedAt_adjCand, solvedAt_adjCand]
  · rfl

lemma candCountAt_adjStep (t : SState) (hW : WF t) {x y i : Nat} (hx : x < 9) (hy : y < 9)
    (hi : i < 9) (set : Nat) (δ : Int) (h' d' : Nat) :
    candCountAt (adjStep δ x y set t i) h' d' =
      candCountAt t h' d' +
        (if testBit set i ∧ d' = i then
          ((if h' = x + 18 then δ else 0) + (if h' = y + 9 then δ else 0) +
            (if h' = (cellAt t x y).group then δ else 0))
        else 0) := by
  unfold adjStep
  by_cases hbit : testBit set i
  · rw [if_pos hbit]
    have hW1 := WF_adjCand t hW (x + 18) i δ
    have hW2 := WF_adjCand _ hW1 (y + 9) i δ
    have hg : (cellAt t x y).group < 9 := group_lt t hW x y
    rw [candCountAt_adjCand _ hW2 (by omega) hi h' d' δ,
      candCountAt_adjCand _ hW1 (by omega) hi h' d' δ,
      candCountAt_adjCand _ hW (by omega) hi h' d' δ]
    by_cases hdd : d' = i <;> simp [hdd, hbit] <;> ring
  · rw [if_neg hbit]
    simp [hbit]

lemma candCountAt_adj_foldl (δ : Int) (x y set : Nat) (h' d' : Nat) :
    ∀ (l : List Nat) (t : SState), WF t → x < 9 → y < 9 → (∀ i ∈ l, i < 9) →
      candCountAt (l.foldl (adjStep δ x y set) t) h' d' =
        candCountAt t h' d' +
          (l.count d' : Int) *
            (if testBit set d' then
              ((if h' = x + 18 then δ else 0) + (if h' = y + 9 then δ else 0) +
                (if h' = (cellAt t x y).group then δ else 0))
            else 0)
  | [], t, _, _, _, _ => by simp
  | a :: l, t, hW, hx, hy, hl => by
    have ha : a < 9 := hl a (by simp)
    have hW' : WF (adjStep δ x y set t a) := WF_adjStep δ x y set t hW a
    rw [List.foldl_cons,
      candCountAt_adj_foldl δ x y set h' d' l _ hW' hx hy (fun i hi => hl i (by simp [hi])),
      candCountAt_adjStep t hW hx hy ha set δ h' d',
      cellAt_congr (grid_adjStep δ x y set t a) x y]
    by_cases had : a = d'
    · subst had
      by_cases hbit : testBit set a
      · simp [hbit, List.count_cons]
        ring
      · simp [hbit, List.count_cons]
    · have had' : ¬(d' = a) := fun he => had he.symm
      simp [had, had', List.count_cons]

lemma grid_adj_foldl (δ : Int) (x y set : Nat) :
    ∀ (l : List Nat) (t : SState), (l.foldl (adjStep δ x y set) t).grid = t.grid
  | [], _ => rfl
  | a :: l, t => by
    rw [List.foldl_cons, grid_adj_foldl δ x y set l _, grid_adjStep]

lemma WF_adj_foldl (δ : Int) (x y set : Nat) :
    ∀ (l : List Nat) (t : SState), WF t → WF (l.foldl (adjStep δ x y set) t)
  | [], _, hW => hW
  | a :: l, t, hW => by
    rw [List.foldl_cons]
    exact WF_adj_foldl δ x y set l _ (WF_adjStep δ x y set t hW a)

lemma solvedAt_adj_foldl (δ : Int) (x y set : Nat) (h' : Nat) :
    ∀ (l : List Nat) (t : SState), solvedAt (l.foldl (adjStep δ x y set) t) h' = solvedAt t h'
  | [], _ => rfl
  | a :: l, t => by
    rw [List.foldl_cons, solvedAt_adj_foldl δ x y set h' l _, solvedAt_adjStep]

lemma count_range_nine (d : Nat) : (List.range 9).count d = if d < 9 then 1 else 0 := by
  by_cases hd : d < 9
  · rw [if_pos hd]
    interval_cases d <;> rfl
  · rw [if_neg hd]
    exact List.count_eq_zero.mpr (fun hmem => hd (List.mem_range.mp hmem))

/-- Net effect of a whole `house_adjust_cand_count_up` / `_down` call on one
cand-count slot. -/
lemma candCountAt_houseAdjustCand (t : SState) (hW : WF t) {x y : Nat} (hx : x < 9)
    (hy : y < 9) (set : Nat) (δ : Int) (h' d' : Nat) :
    candCountAt (houseAdjustCand δ t x y set) h' d' =
      candCountAt t h' d' +
        (if testBit set d' ∧ d' < 9 then
          ((if h' = x + 18 then δ else 0) + (if h' = y + 9 then δ else 0) +
            (if h' = (cellAt t x y).group then δ else 0))
        else 0) := by
  unfold houseAdjustCand
  rw [candCountAt_adj_foldl δ x y set h' d' (List.range 9) t hW hx hy
    (fun i hi => List.mem_range.mp hi)]
  rw [count_range_nine]
  by_cases hd9 : d' < 9 <;> by_cases hbit : testBit set d' <;> simp [hd9, hbit]

lemma grid_houseAdjustCand (δ : Int) (t : SState) (x y set : Nat) :
    (houseAdjustCand δ t x y set).grid = t.grid :=
  grid_adj_foldl δ x y set (List.range 9) t

lemma WF_houseAdjustCand (δ : Int) (t : SState) (hW : WF t) (x y set : Nat) :
    WF (houseAdjustCand δ t x y set) :=
  WF_adj_foldl δ x y set (List.range 9) t hW

lemma solvedAt_houseAdjustCand (δ : Int) (t : SState) (x y set h' : Nat) :
    solvedAt (houseAdjustCand δ t x y set) h' = solvedAt t h' :=
  solvedAt_adj_foldl δ x y set h' (List.range 9) t

lemma candsAt_houseAdjustCand (δ : Int) (t : SState) (x y set a b : Nat) :
    candsAt (houseAdjustCand δ t x y set) a b = candsAt t a b := by
  unfold candsAt
  rw [cellAt_congr (grid_houseAdjustCand δ t x y set)]

lemma valueAt_houseAdjustCand (δ : Int) (t : SState) (x y set a b : Nat) :
    valueAt (houseAdjustCand δ t x y set) a b = valueAt t a b := by
  unfold valueAt
  rw [cellAt_congr (grid_houseAdjustCand δ t x y set)]

lemma getD_set_out {α} (l : List α) {i : Nat} (a d : α) (h : ¬i < l.length) :
    (l.set i a).getD i d = l.getD i d := by
  rw [List.getD_eq_getElem?_getD, List.getElem?_set]
  simp [h, List.getD_eq_getElem?_getD, List.getElem?_eq_none (Nat.le_of_not_lt h)]

lemma houses_setCellCands (s : SState) (x y : Nat) (v : Nat) :
    (setCellCands s x y v).houses = s.houses := rfl

lemma candCountAt_setCellCands (s : SState) (x y v h d : Nat) :
    candCountAt (setCellCands s x y v) h d = candCountAt s h d := rfl

lemma solvedAt_setCellCands (s : SState) (x y v h : Nat) :
    solvedAt (setCellCands s x y v) h = solvedAt s h := rfl

lemma candsAt_setCellCands_self (s : SState) {x y : Nat} (v : Nat)
    (hlt : x * 9 + y < s.grid.length) :
    candsAt (setCellCands s x y v) x y = v := by
  unfold candsAt cellAt setCellCands
  rw [getD_set_self _ _ _ _ hlt]

lemma cellAt_setCellCands_ne (s : SState) {x y x' y' : Nat} (v : Nat)
    (hne : x * 9 + y ≠ x' * 9 + y') :
    cellAt (setCellCands s x y v) x' y' = cellAt s x' y' := by
  unfold cellAt setCellCands
  exact getD_set_ne _ _ _ hne

lemma valueAt_setCellCands (s : SState) (x y v x' y' : Nat) :
    valueAt (setCellCands s x y v) x' y' = valueAt s x' y' := by
  by_cases he : x * 9 + y = x' * 9 + y'
  · unfold valueAt cellAt setCellCands
    rw [← he]
    by_cases hlt : x * 9 + y < s.grid.length
    · rw [getD_set_self _ _ _ _ hlt]
    · rw [getD_set_out _ _ _ hlt]
  · unfold valueAt
    rw [cellAt_setCellCands_ne s v he]

lemma group_setCellCands (s : SState) (x y v x' y' : Nat) :
    (cellAt (setCellCands s x y v) x' y').group = (cellAt s x' y').group := by
  by_cases he : x * 9 + y = x' * 9 + y'
  · unfold cellAt setCellCands
    rw [← he]
    by_cases hlt : x * 9 + y < s.grid.length
    · rw [getD_set_self _ _ _ _ hlt]
    · rw [getD_set_out _ _ _ hlt]
  · rw [cellAt_setCellCands_ne s v he]

lemma filledAt_setCellCands (s : SState) (x y v x' y' : Nat) :
    filledAt (setCellCands s x y v) x' y' = filledAt s x' y' := by
  unfold filledAt cellFilled
  have := valueAt_setCellCands s x y v x' y'
  unfold valueAt at this
  rw [this]

lemma filledAt_houseAdjustCand (δ : Int) (t : SState) (x y set a b : Nat) :
    filledAt (houseAdjustCand δ t x y set) a b = filledAt t a b := by
  unfold filledAt
  rw [cellAt_congr (grid_houseAdjustCand δ t x y set)]

lemma WF_setCellCands (s : SState) (hW : WF s) (x y : Nat) {v : Nat} (hv : v ≤ 511) :
    WF (setCellCands s x y v) := by
  obtain ⟨h1, h2, h3, h4⟩ := hW
  refine ⟨by simpa [setCellCands] using h1, h2, ?_, h4⟩
  intro c hmem
  rcases List.mem_or_eq_of_mem_set hmem with hmem' | rfl
  · exact h3 _ hmem'
  · constructor
    · rcases Nat.lt_or_ge (x * 9 + y) s.grid.length with hlt | hge
      · rw [List.getD_eq_getElem _ _ hlt]
        exact (h3 _ (s.grid.getElem_mem hlt)).1
      · rw [List.getD_eq_getElem?_getD, List.getElem?_eq_none hge]
        simp [defaultCell]
    · exact hv

/- Bit-level facts about `testBit`. -/

lemma testBit_eq (set i : Nat) : testBit set i = set.testBit i := by
  unfold testBit
  rw [Nat.one_shiftLeft, Nat.and_two_pow]
  cases h : set.testBit i <;> simp [h, (Nat.two_pow_pos i).ne']

lemma testBit_zero_mask (i : Nat) : testBit 0 i = false := by
  rw [testBit_eq, Nat.zero_testBit]

lemma testBit_land (a b i : Nat) : testBit (a &&& b) i = (testBit a i && testBit b i) := by
  rw [testBit_eq, testBit_eq, testBit_eq, Nat.testBit_land]

lemma testBit_high_of_le {a : Nat} (ha : a ≤ 511) {d : Nat} (hd : 9 ≤ d) :
    testBit a d = false := by
  rw [testBit_eq]
  exact Nat.testBit_lt_two_pow
    (Nat.lt_of_lt_of_le (by omega) (Nat.pow_le_pow_right (by omega) hd))

lemma testBit_TERMS {d : Nat} (hd : d < 9) : testBit TERMS d = true := by
  rw [testBit_eq]
  show Nat.testBit (2 ^ 9 - 1) d = true
  rw [Nat.testBit_two_pow_sub_one]
  simpa using hd

lemma testBit_xor (a b i : Nat) : testBit (a ^^^ b) i = (testBit a i).xor (testBit b i) := by
  rw [testBit_eq, testBit_eq, testBit_eq, Nat.testBit_xor]

lemma testBit_lor (a b i : Nat) : testBit (a ||| b) i = (testBit a i || testBit b i) := by
  rw [testBit_eq, testBit_eq, testBit_eq, Nat.testBit_lor]

lemma testBit_ffff {d : Nat} (hd : d < 16) : testBit 65535 d = true := by
  rw [testBit_eq]
  show Nat.testBit (2 ^ 16 - 1) d = true
  rw [Nat.testBit_two_pow_sub_one]
  simpa using hd

/- The candidate-change operations (claims C2 and C4). -/

/-- Error kinds raised by the embedded operations (spec section 7). -/
inductive DErr where
  | badKey
  | keyConflict
  | badCount
  | badCorner
  | contradictionAt (c : Nat × Nat)
  deriving DecidableEq, Repr

/-- Mask difference `a \ b` on the 9-bit digit universe. -/
def mdiff (a b : Nat) : Nat := a &&& (TERMS ^^^ b)

/-- `data_State_add_candidates`: for each entry, the C code subtracts the
already-present intersection from the house counts, adds the whole `add_set`,
and ORs the mask in; returned alongside the state is the raised error, since
the C function mutates in place and raises after partial mutation. -/
def add_candidates (s : SState) : List ((Nat × Nat) × Nat) → SState × Option DErr
  | [] => (s, none)
  | ((x, y), add) :: rest =>
    if ¬(x < 9 ∧ y < 9) then (s, some .badKey)
    else if filledAt s x y then (s, some .keyConflict)
    else
      add_candidates
        (setCellCands
          (houseAdjustCand 1
            (if add &&& candsAt s x y ≠ 0 then
              houseAdjustCand (-1) s x y (add &&& candsAt s x y)
            else s) x y add)
          x y (candsAt s x y ||| add)) rest

/-- One `add_candidates` entry as the spec describes it: set the cell's
candidates to `old | add` and update the houses' cand_count by exactly
`add \ old`. -/
def addSpecStep (s : SState) (x y add : Nat) : SState :=
  let old := candsAt s x y
  setCellCands (houseAdjustCand 1 s x y (mdiff add old)) x y (old ||| add)

/-- The spec's `add_candidates` over the whole change mapping, in declared
iteration order. -/
def addSpec (s : SState) : List ((Nat × Nat) × Nat) → SState
  | [] => s
  | ((x, y), add) :: rest => addSpec (addSpecStep s x y add) rest

/-- `data_State_remove_candidates`: for each entry the C code first adds back
the not-present part `remove_set & ~(remove_set & old)` of the removal, then
subtracts the whole `remove_set`, masks the cell with `~remove_set` (uint16
complement), and records the coordinate whenever the resulting mask is empty;
after the loop the last recorded coordinate is raised as a contradiction. -/
def remove_candidates_loop (s : SState) (raise : Option (Nat × Nat)) :
    List ((Nat × Nat) × Nat) → SState × Option DErr
  | [] => (s, raise.map DErr.contradictionAt)
  | ((x, y), rem) :: rest =>
    if ¬(x < 9 ∧ y < 9) then (s, some .badKey)
    else if filledAt s x y then (s, some .keyConflict)
    else
      remove_candidates_loop
        (setCellCands
          (houseAdjustCand (-1)
            (if rem &&& (65535 ^^^ (rem &&& candsAt s x y)) ≠ 0 then
              houseAdjustCand 1 s x y (rem &&& (65535 ^^^ (rem &&& candsAt s x y)))
            else s) x y rem)
          x y (candsAt s x y &&& (65535 ^^^ rem)))
        (if candsAt
            (setCellCands
              (houseAdjustCand (-1)
                (if rem &&& (65535 ^^^ (rem &&& candsAt s x y)) ≠ 0 then
                  houseAdjustCand 1 s x y (rem &&& (65535 ^^^ (rem &&& candsAt s x y)))
                else s) x y rem)
              x y (candsAt s x y &&& (65535 ^^^ rem))) x y = 0
        then some (x, y) else raise) rest

/-- Entry point of `data_State_remove_candidates` (no contradiction recorded
yet). -/
def remove_candidates (s : SState) (entries : List ((Nat × Nat) × Nat)) :
    SState × Option DErr :=
  remove_candidates_loop s none entries

/-- One `remove_candidates` entry as the spec describes it: update the houses'
cand_count by exactly `rem ∩ old` (downward) and set the cell's candidates to
`old & ¬rem`. -/
def removeSpecStep (s : SState) (x y rem : Nat) : SState :=
  let old := candsAt s x y
  setCellCands (houseAdjustCand (-1) s x y (rem &&& old)) x y (mdiff old rem)

/-- The spec's `remove_candidates`: process every entry in declared order,
recording each coordinate whose resulting mask is empty. -/
def removeScan (s : SState) (sites : List (Nat × Nat)) :
    List ((Nat × Nat) × Nat) → SState × List (Nat × Nat)
  | [] => (s, sites)
  | ((x, y), rem) :: rest =>
    removeScan (removeSpecStep s x y rem)
      (if candsAt (removeSpecStep s x y rem) x y = 0 then sites ++ [(x, y)] else sites) rest

/-- Validity of a change mapping as required by claims C2 and C4: every
coordinate is an in-range key of an unsolved cell and every value is the mask
of a CandidateSet (at most 9 bits). -/
def ValidChange (s : SState) (entries : List ((Nat × Nat) × Nat)) : Prop :=
  ∀ e ∈ entries, e.1.1 < 9 ∧ e.1.2 < 9 ∧ filledAt s e.1.1 e.1.2 = false ∧ e.2 ≤ 511

lemma sstate_eq {s t : SState} (h1 : s.solvedTotal = t.solvedTotal)
    (h2 : s.digits = t.digits) (h3 : s.skeys = t.skeys) (h4 : s.houses = t.houses)
    (h5 : s.grid = t.grid) : s = t := by
  cases s; cases t; simp_all

/-- Two well-formed states with the same observations on every house slot have
the same houses array. -/
lemma houses_ext {s t : SState} (hW : WF s) (hW' : WF t)
    (hsol : ∀ h, h < 27 → solvedAt s h = solvedAt t h)
    (hcc : ∀ h d, h < 27 → d < 9 → candCountAt s h d = candCountAt t h d) :
    s.houses = t.houses := by
  apply List.ext_get (by rw [hW.2.1, hW'.2.1])
  intro n h1 h2
  have hn : n < 27 := by have hx := h1; rwa [hW.2.1] at hx
  rw [List.get_eq_getElem, List.get_eq_getElem]
  apply houseInfo_eq
  · have hs := hsol n hn
    unfold solvedAt at hs
    rwa [List.getD_eq_getElem _ _ h1, List.getD_eq_getElem _ _ h2] at hs
  · have len1 : s.houses[n].candCount.length = 9 := hW.2.2.2 _ (List.getElem_mem h1)
    have len2 : t.houses[n].candCount.length = 9 := hW'.2.2.2 _ (List.getElem_mem h2)
    apply List.ext_get (by rw [len1, len2])
    intro m hm1 hm2
    have hm : m < 9 := by have hx := hm1; rwa [len1] at hx
    have hc := hcc n m hn hm
    unfold candCountAt at hc
    rw [List.getD_eq_getElem _ _ h1, List.getD_eq_getElem _ _ h2,
      List.getD_eq_getElem _ _ hm1, List.getD_eq_getElem _ _ hm2] at hc
    rw [List.get_eq_getElem, List.get_eq_getElem]
    exact hc

lemma misc_adjStep (δ : Int) (x y set : Nat) (t : SState) (i : Nat) :
    (adjStep δ x y set t i).solvedTotal = t.solvedTotal ∧
    (adjStep δ x y set t i).digits = t.digits ∧
    (adjStep δ x y set t i).skeys = t.skeys := by
  unfold adjStep
  split <;> exact ⟨rfl, rfl, rfl⟩

lemma misc_adj_foldl (δ : Int) (x y set : Nat) :
    ∀ (l : List Nat) (t : SState),
      (l.foldl (adjStep δ x y set) t).solvedTotal = t.solvedTotal ∧
      (l.foldl (adjStep δ x y set) t).digits = t.digits ∧
      (l.foldl (adjStep δ x y set) t).skeys = t.skeys
  | [], _ => ⟨rfl, rfl, rfl⟩
  | a :: l, t => by
    rw [List.foldl_cons]
    obtain ⟨h1, h2, h3⟩ := misc_adj_foldl δ x y set l (adjStep δ x y set t a)
    obtain ⟨g1, g2, g3⟩ := misc_adjStep δ x y set t a
    exact ⟨h1.trans g1, h2.trans g2, h3.trans g3⟩

lemma misc_houseAdjustCand (δ : Int) (t : SState) (x y set : Nat) :
    (houseAdjustCand δ t x y set).solvedTotal = t.solvedTotal ∧
    (houseAdjustCand δ t x y set).digits = t.digits ∧
    (houseAdjustCand δ t x y set).skeys = t.skeys :=
  misc_adj_foldl δ x y set (List.range 9) t

lemma grid_ite_adjust (δ : Int) (s : SState) (x y m : Nat) (c : Prop) [Decidable c] :
    (if c then houseAdjustCand δ s x y m else s).grid = s.grid := by
  split
  · exact grid_houseAdjustCand δ s x y m
  · rfl

lemma WF_ite_adjust (δ : Int) (s : SState) (hW : WF s) (x y m : Nat) (c : Prop)
    [Decidable c] : WF (if c then houseAdjustCand δ s x y m else s) := by
  split
  · exact WF_houseAdjustCand δ s hW x y m
  · exact hW

lemma solvedAt_ite_adjust (δ : Int) (s : SState) (x y m h : Nat) (c : Prop) [Decidable c] :
    solvedAt (if c then houseAdjustCand δ s x y m else s) h = solvedAt s h := by
  split
  · exact solvedAt_houseAdjustCand δ s x y m h
  · rfl

lemma misc_ite_adjust (δ : Int) (s : SState) (x y m : Nat) (c : Prop) [Decidable c] :
    (if c then houseAdjustCand δ s x y m else s).solvedTotal = s.solvedTotal ∧
    (if c then houseAdjustCand δ s x y m else s).digits = s.digits ∧
    (if c then houseAdjustCand δ s x y m else s).skeys = s.skeys := by
  split
  · exact misc_houseAdjustCand δ s x y m
  · exact ⟨rfl, rfl, rfl⟩

/-- Cand-count observation for the conditionally applied adjustment (the
`if (intersection)` / `if (not_subset)` guards in the C code): the formula is
the same whether or not the guard fires, because an empty mask adjusts
nothing. -/
lemma candCountAt_ite_adjust (s : SState) (hW : WF s) {x y : Nat} (hx : x < 9)
    (hy : y < 9) (inter : Nat) (δ : Int) (h d : Nat) :
    candCountAt (if inter ≠ 0 then houseAdjustCand δ s x y inter else s) h d =
      candCountAt s h d +
        (if testBit inter d ∧ d < 9 then
          ((if h = x + 18 then δ else 0) + (if h = y + 9 then δ else 0) +
            (if h = (cellAt s x y).group then δ else 0))
        else 0) := by
  by_cases hi : inter ≠ 0
  · rw [if_pos hi]
    exact candCountAt_houseAdjustCand s hW hx hy inter δ h d
  · rw [if_neg hi]
    push_neg at hi
    subst hi
    simp [testBit_zero_mask]

lemma grid_setCellCands_congr {s2 s : SState} (h : s2.grid = s.grid) (x y v : Nat) :
    (setCellCands s2 x y v).grid = (setCellCands s x y v).grid := by
  unfold setCellCands
  rw [h]

/-- The source step of `add_candidates` (guarded down-adjust by the
intersection, up-adjust by the whole set, OR into the mask) equals the spec
step (up-adjust by exactly the new bits). -/
lemma add_step_eq (s : SState) (hW : WF s) {x y add : Nat} (hx : x < 9) (hy : y < 9)
    (hadd : add ≤ 511) :
    setCellCands
      (houseAdjustCand 1
        (if add &&& candsAt s x y ≠ 0 then
          houseAdjustCand (-1) s x y (add &&& candsAt s x y)
        else s) x y add)
      x y (candsAt s x y ||| add) = addSpecStep s x y add := by
  set old := candsAt s x y with hold
  set s1 := if add &&& old ≠ 0 then houseAdjustCand (-1) s x y (add &&& old) else s with hs1
  have hg1 : s1.grid = s.grid := grid_ite_adjust _ s x y _ _
  have hW1 : WF s1 := WF_ite_adjust _ s hW x y _ _
  have hg2 : (houseAdjustCand 1 s1 x y add).grid = s.grid :=
    (grid_houseAdjustCand 1 s1 x y add).trans hg1
  have hgr : (houseAdjustCand 1 s x y (mdiff add old)).grid = s.grid :=
    grid_houseAdjustCand 1 s x y (mdiff add old)
  apply sstate_eq
  · show (houseAdjustCand 1 s1 x y add).solvedTotal = _
    rw [(misc_houseAdjustCand 1 s1 x y add).1, (misc_ite_adjust (-1) s x y _ _).1]
    exact ((misc_houseAdjustCand 1 s x y (mdiff add old)).1).symm
  · show (houseAdjustCand 1 s1 x y add).digits = _
    rw [(misc_houseAdjustCand 1 s1 x y add).2.1, (misc_ite_adjust (-1) s x y _ _).2.1]
    exact ((misc_houseAdjustCand 1 s x y (mdiff add old)).2.1).symm
  · show (houseAdjustCand 1 s1 x y add).skeys = _
    rw [(misc_houseAdjustCand 1 s1 x y add).2.2, (misc_ite_adjust (-1) s x y _ _).2.2]
    exact ((misc_houseAdjustCand 1 s x y (mdiff add old)).2.2).symm
  · show (houseAdjustCand 1 s1 x y add).houses = (houseAdjustCand 1 s x y (mdiff add old)).houses
    apply houses_ext (WF_houseAdjustCand 1 s1 hW1 x y add)
      (WF_houseAdjustCand 1 s hW x y (mdiff add old))
    · intro h _
      rw [solvedAt_houseAdjustCand, solvedAt_houseAdjustCand, solvedAt_ite_adjust]
    · intro h d _ hd9
      rw [candCountAt_houseAdjustCand s1 hW1 hx hy add 1 h d,
        candCountAt_houseAdjustCand s hW hx hy (mdiff add old) 1 h d,
        cellAt_congr hg1 x y,
        candCountAt_ite_adjust s hW hx hy (add &&& old) (-1) h d]
      have hb3 : testBit (mdiff add old) d = (testBit add d && !testBit old d) := by
        unfold mdiff
        rw [testBit_land, testBit_xor, testBit_TERMS hd9]
        cases testBit old d <;> simp
      cases ha : testBit add d <;> cases ho : testBit old d <;>
        simp [testBit_land, hb3, ha, ho, hd9]
      all_goals (split_ifs <;> ring)
  · show (setCellCands (houseAdjustCand 1 s1 x y add) x y (old ||| add)).grid = _
    rw [grid_setCellCands_congr hg2, addSpecStep]
    exact (grid_setCellCands_congr hgr x y (old ||| add)).symm

/-- The source step of `remove_candidates` (guarded up-adjust by the
not-present part, down-adjust by the whole set, AND with the uint16 complement)
equals the spec step (down-adjust by exactly `rem ∩ old`, mask to
`old & ¬rem`). -/
lemma remove_step_eq (s : SState) (hW : WF s) {x y rem : Nat} (hx : x < 9) (hy : y < 9)
    (hrem : rem ≤ 511) :
    setCellCands
      (houseAdjustCand (-1)
        (if rem &&& (65535 ^^^ (rem &&& candsAt s x y)) ≠ 0 then
          houseAdjustCand 1 s x y (rem &&& (65535 ^^^ (rem &&& candsAt s x y)))
        else s) x y rem)
      x y (candsAt s x y &&& (65535 ^^^ rem)) = removeSpecStep s x y rem := by
  set old := candsAt s x y with hold
  have holdle : old ≤ 511 := cands_le s hW x y
  set notSub := rem &&& (65535 ^^^ (rem &&& old)) with hns
  set s1 := if notSub ≠ 0 then houseAdjustCand 1 s x y notSub else s with hs1
  have hg1 : s1.grid = s.grid := grid_ite_adjust _ s x y _ _
  have hW1 : WF s1 := WF_ite_adjust _ s hW x y _ _
  have hg2 : (houseAdjustCand (-1) s1 x y rem).grid = s.grid :=
    (grid_houseAdjustCand (-1) s1 x y rem).trans hg1
  have hgr : (houseAdjustCand (-1) s x y (rem &&& old)).grid = s.grid :=
    grid_houseAdjustCand (-1) s x y (rem &&& old)
  have hmask : old &&& (65535 ^^^ rem) = mdiff old rem := by
    apply Nat.eq_of_testBit_eq
    intro i
    unfold mdiff
    rw [Nat.testBit_land, Nat.testBit_land, Nat.testBit_xor, Nat.testBit_xor]
    by_cases hi : i < 9
    · have h16 : Nat.testBit 65535 i = true := by
        show Nat.testBit (2 ^ 16 - 1) i = true
        rw [Nat.testBit_two_pow_sub_one]
        simpa using (by omega : i < 16)
      have h9 : Nat.testBit TERMS i = true := by
        show Nat.testBit (2 ^ 9 - 1) i = true
        rw [Nat.testBit_two_pow_sub_one]
        simpa using hi
      rw [h16, h9]
    · have hz : Nat.testBit old i = false := by
        rw [← testBit_eq]
        exact testBit_high_of_le holdle (by omega)
      simp [hz]
  apply sstate_eq
  · show (houseAdjustCand (-1) s1 x y rem).solvedTotal = _
    rw [(misc_houseAdjustCand (-1) s1 x y rem).1, (misc_ite_adjust 1 s x y _ _).1]
    exact ((misc_houseAdjustCand (-1) s x y (rem &&& old)).1).symm
  · show (houseAdjustCand (-1) s1 x y rem).digits = _
    rw [(misc_houseAdjustCand (-1) s1 x y rem).2.1, (misc_ite_adjust 1 s x y _ _).2.1]
    exact ((misc_houseAdjustCand (-1) s x y (rem &&& old)).2.1).symm
  · show (houseAdjustCand (-1) s1 x y rem).skeys = _
    rw [(misc_houseAdjustCand (-1) s1 x y rem).2.2, (misc_ite_adjust 1 s x y _ _).2.2]
    exact ((misc_houseAdjustCand (-1) s x y (rem &&& old)).2.2).symm
  · show (houseAdjustCand (-1) s1 x y rem).houses =
      (houseAdjustCand (-1) s x y (rem &&& old)).houses
    apply houses_ext (WF_houseAdjustCand (-1) s1 hW1 x y rem)
      (WF_houseAdjustCand (-1) s hW x y (rem &&& old))
    · intro h _
      rw [solvedAt_houseAdjustCand, solvedAt_houseAdjustCand, solvedAt_ite_adjust]
    · intro h d _ hd9
      rw [candCountAt_houseAdjustCand s1 hW1 hx hy rem (-1) h d,
        candCountAt_houseAdjustCand s hW hx hy (rem &&& old) (-1) h d,
        cellAt_congr hg1 x y,
        candCountAt_ite_adjust s hW hx hy notSub 1 h d]
      have hb : testBit notSub d = (testBit rem d && !(testBit rem d && testBit old d)) := by
        rw [hns, testBit_land, testBit_xor, testBit_land, testBit_ffff (by omega)]
        cases testBit rem d <;> cases testBit old d <;> simp
      cases hr : testBit rem d <;> cases ho : testBit old d <;>
        simp [testBit_land, hb, hr, ho, hd9]
      all_goals (split_ifs <;> ring)
  · show (setCellCands (houseAdjustCand (-1) s1 x y rem) x y (old &&& (65535 ^^^ rem))).grid = _
    rw [grid_setCellCands_congr hg2, hmask, removeSpecStep]
    exact (grid_setCellCands_congr hgr x y (mdiff old rem)).symm

/- Preservation lemmas for the spec steps, used to walk the change mapping. -/

lemma filledAt_addSpecStep (s : SState) (x y add a b : Nat) :
    filledAt (addSpecStep s x y add) a b = filledAt s a b := by
  unfold addSpecStep
  rw [filledAt_setCellCands, filledAt_houseAdjustCand]

lemma WF_addSpecStep (s : SState) (hW : WF s) {x y add : Nat} (hadd : add ≤ 511) :
    WF (addSpecStep s x y add) := by
  unfold addSpecStep
  apply WF_setCellCands _ (WF_houseAdjustCand 1 s hW x y _) x y
  have h1 : candsAt s x y < 2 ^ 9 := by
    have := cands_le s hW x y
    omega
  have h2 : add < 2 ^ 9 := by omega
  have := Nat.or_lt_two_pow h1 h2
  omega

lemma filledAt_removeSpecStep (s : SState) (x y rem a b : Nat) :
    filledAt (removeSpecStep s x y rem) a b = filledAt s a b := by
  unfold removeSpecStep
  rw [filledAt_setCellCands, filledAt_houseAdjustCand]

lemma WF_removeSpecStep (s : SState) (hW : WF s) (x y rem : Nat) :
    WF (removeSpecStep s x y rem) := by
  unfold removeSpecStep
  apply WF_setCellCands _ (WF_houseAdjustCand (-1) s hW x y _) x y
  exact Nat.le_trans Nat.and_le_left (cands_le s hW x y)

lemma add_candidates_eq_spec :
    ∀ (entries : List ((Nat × Nat) × Nat)) (s : SState), WF s → ValidChange s entries →
      add_candidates s entries = (addSpec s entries, none)
  | [], _, _, _ => rfl
  | ((x, y), add) :: rest, s, hW, hval => by
    obtain ⟨hx, hy, hunf, hadd⟩ := hval _ (List.mem_cons_self _ _)
    rw [add_candidates, addSpec,
      if_neg (not_not_intro ⟨hx, hy⟩), if_neg (by simp [hunf]),
      add_step_eq s hW hx hy hadd]
    exact add_candidates_eq_spec rest _ (WF_addSpecStep s hW hadd)
      (fun e he => by
        obtain ⟨h1, h2, h3, h4⟩ := hval e (List.mem_cons_of_mem _ he)
        exact ⟨h1, h2, (filledAt_addSpecStep s x y add _ _).trans h3, h4⟩)

lemma remove_loop_eq_scan :
    ∀ (entries : List ((Nat × Nat) × Nat)) (s : SState) (raise : Option (Nat × Nat))
      (sites : List (Nat × Nat)), WF s → ValidChange s entries → raise = sites.getLast? →
      remove_candidates_loop s raise entries =
        ((removeScan s sites entries).1,
          ((removeScan s sites entries).2).getLast?.map DErr.contradictionAt)
  | [], s, raise, sites, _, _, hr => by
    rw [remove_candidates_loop, removeScan, hr]
  | ((x, y), rem) :: rest, s, raise, sites, hW, hval, hr => by
    obtain ⟨hx, hy, hunf, hrem⟩ := hval _ (List.mem_cons_self _ _)
    rw [remove_candidates_loop, removeScan,
      if_neg (not_not_intro ⟨hx, hy⟩), if_neg (by simp [hunf]),
      remove_step_eq s hW hx hy hrem]
    apply remove_loop_eq_scan rest _ _ _ (WF_removeSpecStep s hW x y rem)
      (fun e he => by
        obtain ⟨h1, h2, h3, h4⟩ := hval e (List.mem_cons_of_mem _ he)
        exact ⟨h1, h2, (filledAt_removeSpecStep s x y rem _ _).trans h3, h4⟩)
    by_cases hz : candsAt (removeSpecStep s x y rem) x y = 0
    · simp [hz]
    · simp [hz, hr]

lemma set_getD_self {α} (l : List α) (i : Nat) (d : α) : l.set i (l.getD i d) = l := by
  apply List.ext_get (by simp)
  intro n h1 h2
  rw [List.get_eq_getElem, List.get_eq_getElem, List.getElem_set]
  split
  · next he =>
    subst he
    exact List.getD_eq_getElem _ _ h2
  · rfl

lemma setCellCands_self (s : SState) (x y : Nat) :
    setCellCands s x y (candsAt s x y) = s := by
  refine sstate_eq rfl rfl rfl rfl ?_
  show s.grid.set (x * 9 + y) (s.grid.getD (x * 9 + y) defaultCell) = s.grid
  exact set_getD_self _ _ _

lemma adjStep_zero (δ : Int) (x y : Nat) (t : SState) (i : Nat) :
    adjStep δ x y 0 t i = t := by
  unfold adjStep
  rw [if_neg]
  simp [testBit_zero_mask]

lemma houseAdjustCand_zero (δ : Int) (s : SState) (x y : Nat) :
    houseAdjustCand δ s x y 0 = s := by
  unfold houseAdjustCand
  have h : ∀ (l : List Nat) (t : SState), l.foldl (adjStep δ x y 0) t = t := by
    intro l
    induction l with
    | nil => intro t; rfl
    | cons a l ih =>
      intro t
      rw [List.foldl_cons, adjStep_zero]
      exact ih t
  exact h _ s

/-- Claim C4: under the claim's hypotheses (every coordinate a valid in-range
key of an unsolved cell, every value a CandidateSet mask), `add_candidates`
never fails and implements exactly the spec's per-entry update (mask becomes
`old | add`, house cand_counts bumped by exactly `add \ old`); in particular,
re-adding candidates already present leaves the state entirely unchanged. -/
theorem add_candidates_correct (s : SState) (entries : List ((Nat × Nat) × Nat))
    (hW : WF s) (hval : ValidChange s entries) :
    add_candidates s entries = (addSpec s entries, none) ∧
    (∀ x y add, x < 9 → y < 9 → filledAt s x y = false → add ≤ 511 →
      add &&& candsAt s x y = add → add_candidates s [((x, y), add)] = (s, none)) := by
  constructor
  · exact add_candidates_eq_spec entries s hW hval
  · intro x y add hx hy hunf hadd hsub
    rw [add_candidates_eq_spec [((x, y), add)] s hW
      (fun e he => by
        rw [List.mem_singleton] at he
        subst he
        exact ⟨hx, hy, hunf, hadd⟩)]
    have himp : ∀ i, add.testBit i = true → (candsAt s x y).testBit i = true := by
      intro i hi
      have := congrArg (fun m => m.testBit i) hsub
      simpa [Nat.testBit_land, hi] using this.symm
    have h1 : mdiff add (candsAt s x y) = 0 := by
      apply Nat.eq_of_testBit_eq
      intro i
      unfold mdiff
      rw [Nat.testBit_land, Nat.testBit_xor, Nat.zero_testBit]
      by_cases hi : i < 9
      · have h9 : Nat.testBit TERMS i = true := by
          show Nat.testBit (2 ^ 9 - 1) i = true
          rw [Nat.testBit_two_pow_sub_one]
          simpa using hi
        rw [h9]
        cases ha : add.testBit i
        · rfl
        · simp [himp i ha]
      · have : Nat.testBit add i = false := by
          rw [← testBit_eq]
          exact testBit_high_of_le hadd (by omega)
        simp [this]
    have h2 : candsAt s x y ||| add = candsAt s x y := by
      apply Nat.eq_of_testBit_eq
      intro i
      rw [Nat.testBit_lor]
      cases ha : add.testBit i
      · simp
      · simp [himp i ha]
    rw [addSpec, addSpec, addSpecStep]
    rw [h1, h2, houseAdjustCand_zero, setCellCands_self]

/-- Claim C2: under the claim's hypotheses, `remove_candidates` implements
exactly the spec's sequential processing: every entry's removal is applied
(house cand_counts down by exactly `rem ∩ old`, mask to `old & ¬rem`) with no
rollback, contradiction sites are recorded as processing continues, and the
call fails with a contradiction naming the last emptied coordinate when one
exists. -/
theorem remove_candidates_correct (s : SState) (entries : List ((Nat × Nat) × Nat))
    (hW : WF s) (hval : ValidChange s entries) :
    remove_candidates s entries =
      ((removeScan s [] entries).1,
        ((removeScan s [] entries).2).getLast?.map DErr.contradictionAt) :=
  remove_loop_eq_scan entries s none [] hW hval rfl

/-- A well-formed all-unsolved state used as a concrete input by witnesses. -/
def emptyState : SState :=
  { solvedTotal := 0, digits := List.replicate 9 0, skeys := [],
    houses := List.replicate 27 defaultHouse,
    grid := List.replicate 81 defaultCell }

lemma WF_emptyState : WF emptyState := by
  refine ⟨rfl, rfl, ?_, ?_⟩
  · intro c hc
    rw [List.eq_of_mem_replicate hc]
    exact ⟨by decide, by decide⟩
  · intro hi hhi
    rw [List.eq_of_mem_replicate hhi]
    rfl

theorem add_candidates_correct_witness :
    add_candidates emptyState [((0, 0), 3)] = (addSpec emptyState [((0, 0), 3)], none) ∧
    (∀ x y add, x < 9 → y < 9 → filledAt emptyState x y = false → add ≤ 511 →
      add &&& candsAt emptyState x y = add →
      add_candidates emptyState [((x, y), add)] = (emptyState, none)) :=
  add_candidates_correct emptyState [((0, 0), 3)] WF_emptyState
    (fun e he => by
      rw [List.mem_singleton] at he
      subst he
      exact ⟨by decide, by decide, by decide, by decide⟩)

theorem remove_candidates_correct_witness :
    remove_candidates emptyState [((0, 0), 1)] =
      ((removeScan emptyState [] [((0, 0), 1)]).1,
        ((removeScan emptyState [] [((0, 0), 1)]).2).getLast?.map DErr.contradictionAt) :=
  remove_candidates_correct emptyState [((0, 0), 1)] WF_emptyState
    (fun e he => by
      rw [List.mem_singleton] at he
      subst he
      exact ⟨by decide, by decide, by decide, by decide⟩)

/- order_exactly_n (claim C7). -/

/-- The count validation in `data_State_order_exactly_n_impl` (line 2072): the
count is rejected exactly when `count < 0` or `count >= NUMROWS`.  In
particular `count = 0` is accepted. -/
def order_exactly_n_bad (count : Int) : Bool :=
  decide (count < 0) || decide (9 ≤ count)

/-- `exactly_n_keyiterfunc` run to exhaustion.  The iterator's resume state
`(ki_next_x, ki_next_y)` is represented by the linear index
`pos = ki_next_x*9 + ki_next_y` (the stored `ki_next_y` may be 9, which is the
same scan point as the start of the next row); `left = 81 - pos` cells remain
to be scanned.  A coordinate is emitted when the cell is unsolved and
`isizes[cands] = count_ones(cands)` equals the requested count. -/
def exactlyNScan (g : List CellInfo) (k : Nat) : Nat → Nat → List (Nat × Nat)
  | _, 0 => []
  | pos, left + 1 =>
    if cellFilled (g.getD pos defaultCell) = false ∧
        count_ones (g.getD pos defaultCell).cands = k then
      (pos / 9, pos % 9) :: exactlyNScan g k (pos + 1) left
    else
      exactlyNScan g k (pos + 1) left

/-- `data_State_order_exactly_n_impl`: validate the count, then hand back the
iterator, here represented by the full list of coordinates it will yield. -/
def order_exactly_n (g : List CellInfo) (count : Int) : Except DErr (List (Nat × Nat)) :=
  if order_exactly_n_bad count then .error .badCount
  else .ok (exactlyNScan g count.toNat 0 81)

/-- The spec's description of the iterator's output: the unsolved cells whose
candidate-set size equals `k`, in row-major order. -/
def exactlyNSpec (g : List CellInfo) (k : Nat) : List (Nat × Nat) :=
  ((List.range 81).filter (fun i =>
    !cellFilled (g.getD i defaultCell) && (maskSize (g.getD i defaultCell).cands == k))).map
    (fun i => (i / 9, i % 9))

lemma exactlyNScan_eq_filter (g : List CellInfo) (k : Nat)
    (hg : ∀ c ∈ g, c.cands ≤ 511) :
    ∀ (left pos : Nat),
      exactlyNScan g k pos left =
        ((List.range' pos left).filter (fun i =>
          !cellFilled (g.getD i defaultCell) &&
            (maskSize (g.getD i defaultCell).cands == k))).map (fun i => (i / 9, i % 9))
  | 0, _ => rfl
  | left + 1, pos => by
    have hc : (g.getD pos defaultCell).cands ≤ 511 := by
      rcases Nat.lt_or_ge pos g.length with hlt | hge
      · rw [List.getD_eq_getElem _ _ hlt]
        exact hg _ (g.getElem_mem hlt)
      · rw [List.getD_eq_getElem?_getD, List.getElem?_eq_none hge]
        simp [defaultCell]
    have hsz : count_ones (g.getD pos defaultCell).cands =
        maskSize (g.getD pos defaultCell).cands :=
      count_ones_eq_maskSize _ (by omega)
    rw [exactlyNScan, List.range'_succ, List.filter_cons,
      exactlyNScan_eq_filter g k hg left (pos + 1)]
    by_cases hf : cellFilled (g.getD pos defaultCell) = false ∧
        count_ones (g.getD pos defaultCell).cands = k
    · rw [if_pos hf]
      have : (!cellFilled (g.getD pos defaultCell) &&
          (maskSize (g.getD pos defaultCell).cands == k)) = true := by
        rw [hf.1, ← hsz, hf.2]
        simp
      rw [if_pos this, List.map_cons]
    · rw [if_neg hf]
      have : ¬(!cellFilled (g.getD pos defaultCell) &&
          (maskSize (g.getD pos defaultCell).cands == k)) = true := by
        intro hcon
        simp only [Bool.and_eq_true, Bool.not_eq_true', beq_iff_eq] at hcon
        exact hf ⟨hcon.1, hsz ▸ hcon.2⟩
      rw [if_neg this]

/-- Claim C7 (amended): `order_exactly_n` rejects `k < 0` and `k ≥ 9` with
BadCount, and for every accepted `k` (including `k = 0`) yields exactly the
unsolved cells whose candidate-set size equals `k`, in row-major order. -/
theorem order_exactly_n_correct (g : List CellInfo) (count : Int)
    (hg : ∀ c ∈ g, c.cands ≤ 511) :
    ((count < 0 ∨ 9 ≤ count) → order_exactly_n g count = .error .badCount) ∧
    (0 ≤ count → count < 9 →
      order_exactly_n g count = .ok (exactlyNSpec g count.toNat)) := by
  constructor
  · intro hbad
    rw [order_exactly_n, if_pos]
    rcases hbad with hb | hb <;> simp [order_exactly_n_bad, hb]
  · intro h0 h9
    rw [order_exactly_n, if_neg (by simp [order_exactly_n_bad]; omega)]
    rw [exactlyNScan_eq_filter g count.toNat hg 81 0, exactlyNSpec, List.range_eq_range']

/-- Claim C7 counterexample: the claim says `order_exactly_n(0)` fails with
BadCount, but on an all-unsolved empty-mask grid the call succeeds (returning
all 81 cells, each of which has zero candidates). -/
theorem order_exactly_n_accepts_zero :
    order_exactly_n_bad 0 = false ∧
    (order_exactly_n (List.replicate 81 defaultCell) 0).isOk = true := by decide

/- find_rectangles (claims C8 and C10). -/

/-- The SUBSET macro from datamodule.c: `x` is a subset of `y` when
`(x | y) == y`. -/
def SUBSET (a b : Nat) : Bool := (a ||| b) == b

/-- Read a cell out of a bare grid array (`ss_grid`). -/
def gcell (g : List CellInfo) (x y : Nat) : CellInfo := g.getD (x * 9 + y) defaultCell

/-- CELL_FILLED over a bare grid array. -/
def gfilled (g : List CellInfo) (x y : Nat) : Bool := cellFilled (gcell g x y)

/-- CELL_CANDS over a bare grid array. -/
def gcands (g : List CellInfo) (x y : Nat) : Nat := (gcell g x y).cands

/-- One rectangle result: the shared candidate set and the four corners in
clockwise order (upper left, upper right, lower right, lower left). -/
structure Rect where
  cset : Nat
  ul : Nat × Nat
  ur : Nat × Nat
  lr : Nat × Nat
  ll : Nat × Nat
  deriving DecidableEq, Repr

/-- Innermost loop body of `find_rectangles_one_key` for fixed upper-right
column `j` and candidate lower row `i`: check the lower-left cell, then the
lower-right cell, and emit the completed rectangle. -/
def rect_corner (g : List CellInfo) (required x y j i : Nat) : List Rect :=
  if gfilled g i y then []
  else if (gcands g x y &&& gcands g x j &&& gcands g i y) ≠ 0 ∧
      SUBSET required (gcands g x y &&& gcands g x j &&& gcands g i y) = true then
    if gfilled g i j then []
    else if (gcands g x y &&& gcands g x j &&& gcands g i y &&& gcands g i j) ≠ 0 ∧
        SUBSET required (gcands g x y &&& gcands g x j &&& gcands g i y &&& gcands g i j) =
          true then
      [⟨gcands g x y &&& gcands g x j &&& gcands g i y &&& gcands g i j,
        (x, y), (x, j), (i, j), (i, y)⟩]
    else []
  else []

/-- Outer loop body of `find_rectangles_one_key` for a fixed upper-right
column `j`: check the upper-right cell, then walk the rows below the corner. -/
def rect_col (g : List CellInfo) (required x y j : Nat) : List Rect :=
  if gfilled g x j then []
  else if (gcands g x y &&& gcands g x j) ≠ 0 ∧
      SUBSET required (gcands g x y &&& gcands g x j) = true then
    (List.range' (x + 1) (8 - x)).flatMap (rect_corner g required x y j)
  else []

/-- `find_rectangles_one_key` from datamodule.c: reject a corner in the last
row or column, return nothing for a solved corner or when `required` is not in
the corner's candidates, otherwise scan columns `j > y` (outer) and rows
`i > x` (inner). -/
def find_rectangles_one_key (g : List CellInfo) (x y : Nat) (required : Nat) :
    Except DErr (List Rect) :=
  if x = 8 ∨ y = 8 then .error .badCorner
  else if gfilled g x y then .ok []
  else if ¬SUBSET required (gcands g x y) = true then .ok []
  else .ok ((List.range' (y + 1) (8 - y)).flatMap (rect_col g required x y))

/-- `data_State_find_rectangles_impl`: anchored mode validates the key and
delegates to `find_rectangles_one_key`; global mode scans every unsolved
coordinate with row and column below 8 and concatenates the results (the
error branch of the inner call is unreachable there, since `i, j < 8`). -/
def find_rectangles (g : List CellInfo) : Option (Nat × Nat) → Nat → Except DErr (List Rect)
  | some (x, y), required =>
    if ¬(x < 9 ∧ y < 9) then .error .badKey
    else find_rectangles_one_key g x y required
  | none, required =>
    .ok ((List.range 8).flatMap (fun i => (List.range 8).flatMap (fun j =>
      if gfilled g i j then []
      else
        match find_rectangles_one_key g i j required with
        | .ok l => l
        | .error _ => [])))

/-- The rectangle predicate of claim C8: corners in clockwise order
`((r1,c1),(r1,c2),(r2,c2),(r2,c1))` with `r1 < r2`, `c1 < c2`, all four cells
unsolved, and the emitted set the nonempty intersection of the four masks,
containing `required`. -/
def RectPred (g : List CellInfo) (required : Nat) (r : Rect) : Prop :=
  ∃ r1 c1 r2 c2, r1 < r2 ∧ c1 < c2 ∧ r2 < 9 ∧ c2 < 9 ∧
    r.ul = (r1, c1) ∧ r.ur = (r1, c2) ∧ r.lr = (r2, c2) ∧ r.ll = (r2, c1) ∧
    gfilled g r1 c1 = false ∧ gfilled g r1 c2 = false ∧
    gfilled g r2 c1 = false ∧ gfilled g r2 c2 = false ∧
    r.cset = gcands g r1 c1 &&& gcands g r1 c2 &&& gcands g r2 c1 &&& gcands g r2 c2 ∧
    r.cset ≠ 0 ∧ SUBSET required r.cset = true

/-- Anchored-mode output order: ascending upper-right column (outer loop),
then ascending lower-right row (inner loop). -/
def rectOrder (a b : Rect) : Prop :=
  a.ur.2 < b.ur.2 ∨ (a.ur.2 = b.ur.2 ∧ a.lr.1 < b.lr.1)

lemma mem_range'_bounds {m s n : Nat} (h : m ∈ List.range' s n) : s ≤ m ∧ m < s + n := by
  rw [List.mem_range'] at h
  obtain ⟨i, hi, rfl⟩ := h
  omega

lemma mem_rect_corner {g : List CellInfo} {required x y j i : Nat} {r : Rect}
    (h : r ∈ rect_corner g required x y j i) :
    gfilled g i y = false ∧ gfilled g i j = false ∧
    (gcands g x y &&& gcands g x j &&& gcands g i y &&& gcands g i j) ≠ 0 ∧
    SUBSET required (gcands g x y &&& gcands g x j &&& gcands g i y &&& gcands g i j) =
      true ∧
    r = ⟨gcands g x y &&& gcands g x j &&& gcands g i y &&& gcands g i j,
          (x, y), (x, j), (i, j), (i, y)⟩ := by
  unfold rect_corner at h
  by_cases h1 : gfilled g i y = true
  · rw [if_pos h1] at h
    simp at h
  rw [if_neg h1] at h
  by_cases h2 : (gcands g x y &&& gcands g x j &&& gcands g i y) ≠ 0 ∧
      SUBSET required (gcands g x y &&& gcands g x j &&& gcands g i y) = true
  · rw [if_pos h2] at h
    by_cases h3 : gfilled g i j = true
    · rw [if_pos h3] at h
      simp at h
    rw [if_neg h3] at h
    by_cases h4 : (gcands g x y &&& gcands g x j &&& gcands g i y &&& gcands g i j) ≠ 0 ∧
        SUBSET required (gcands g x y &&& gcands g x j &&& gcands g i y &&& gcands g i j) =
          true
    · rw [if_pos h4, List.mem_singleton] at h
      exact ⟨by simpa using h1, by simpa using h3, h4.1, h4.2, h⟩
    · rw [if_neg h4] at h
      simp at h
  · rw [if_neg h2] at h
    simp at h

lemma mem_rect_col {g : List CellInfo} {required x y j : Nat} {r : Rect}
    (h : r ∈ rect_col g required x y j) :
    gfilled g x j = false ∧
    ∃ i, x + 1 ≤ i ∧ i < 9 ∧ r ∈ rect_corner g required x y j i := by
  unfold rect_col at h
  by_cases h1 : gfilled g x j = true
  · rw [if_pos h1] at h
    simp at h
  rw [if_neg h1] at h
  by_cases h2 : (gcands g x y &&& gcands g x j) ≠ 0 ∧
      SUBSET required (gcands g x y &&& gcands g x j) = true
  · rw [if_pos h2, List.mem_flatMap] at h
    obtain ⟨i, hi, hmem⟩ := h
    obtain ⟨hi1, hi2⟩ := mem_range'_bounds hi
    exact ⟨by simpa using h1, i, hi1, by omega, hmem⟩
  · rw [if_neg h2] at h
    simp at h

/-- Every rectangle emitted by `find_rectangles_one_key` satisfies the
rectangle predicate with the requested corner as upper left. -/
lemma one_key_pred {g : List CellInfo} {x y required : Nat} {l : List Rect} {r : Rect}
    (hok : find_rectangles_one_key g x y required = .ok l) (hr : r ∈ l) :
    RectPred g required r ∧ r.ul = (x, y) := by
  unfold find_rectangles_one_key at hok
  by_cases h1 : x = 8 ∨ y = 8
  · rw [if_pos h1] at hok
    exact absurd hok (by simp)
  rw [if_neg h1] at hok
  by_cases h2 : gfilled g x y = true
  · rw [if_pos h2, Except.ok.injEq] at hok
    subst hok
    simp at hr
  rw [if_neg h2] at hok
  by_cases h3 : ¬SUBSET required (gcands g x y) = true
  · rw [if_pos h3, Except.ok.injEq] at hok
    subst hok
    simp at hr
  rw [if_neg h3, Except.ok.injEq] at hok
  subst hok
  rw [List.mem_flatMap] at hr
  obtain ⟨j, hj, hcol⟩ := hr
  obtain ⟨hj1, hj2⟩ := mem_range'_bounds hj
  obtain ⟨hxj, i, hi1, hi9, hcorner⟩ := mem_rect_col hcol
  obtain ⟨hiy, hij, hne, hsub, rfl⟩ := mem_rect_corner hcorner
  exact ⟨⟨x, y, i, j, by omega, by omega, hi9, by omega,
    rfl, rfl, rfl, rfl, by simpa using h2, hxj, hiy, hij, rfl, hne, hsub⟩, rfl⟩

lemma rect_corner_pairwise (g : List CellInfo) (required x y j i : Nat)
    (P : Rect → Rect → Prop) : (rect_corner g required x y j i).Pairwise P := by
  unfold rect_corner
  split_ifs <;> simp

/-- The rectangles emitted by one `find_rectangles_one_key` call are ordered
by ascending upper-right column, then ascending lower-right row. -/
lemma one_key_pairwise {g : List CellInfo} {x y required : Nat} {l : List Rect}
    (hok : find_rectangles_one_key g x y required = .ok l) :
    l.Pairwise rectOrder := by
  unfold find_rectangles_one_key at hok
  by_cases h1 : x = 8 ∨ y = 8
  · rw [if_pos h1] at hok
    exact absurd hok (by simp)
  rw [if_neg h1] at hok
  by_cases h2 : gfilled g x y = true
  · rw [if_pos h2, Except.ok.injEq] at hok
    subst hok
    exact List.Pairwise.nil
  rw [if_neg h2] at hok
  by_cases h3 : ¬SUBSET required (gcands g x y) = true
  · rw [if_pos h3, Except.ok.injEq] at hok
    subst hok
    exact List.Pairwise.nil
  rw [if_neg h3, Except.ok.injEq] at hok
  subst hok
  rw [List.pairwise_flatMap]
  constructor
  · intro j _
    unfold rect_col
    by_cases hc1 : gfilled g x j = true
    · rw [if_pos hc1]
      exact List.Pairwise.nil
    rw [if_neg hc1]
    by_cases hc2 : (gcands g x y &&& gcands g x j) ≠ 0 ∧
        SUBSET required (gcands g x y &&& gcands g x j) = true
    · rw [if_pos hc2, List.pairwise_flatMap]
      constructor
      · intro i _
        exact rect_corner_pairwise g required x y j i rectOrder
      · refine List.Pairwise.imp ?_ (List.pairwise_lt_range' (x + 1) (8 - x))
        intro i1 i2 hlt a ha b hb
        obtain ⟨_, _, _, _, rfl⟩ := mem_rect_corner ha
        obtain ⟨_, _, _, _, rfl⟩ := mem_rect_corner hb
        exact Or.inr ⟨rfl, hlt⟩
    · rw [if_neg hc2]
      exact List.Pairwise.nil
  · refine List.Pairwise.imp ?_ (List.pairwise_lt_range' (y + 1) (8 - y))
    intro j1 j2 hlt a ha b hb
    obtain ⟨_, i1, _, _, ha2⟩ := mem_rect_col ha
    obtain ⟨_, i2, _, _, hb2⟩ := mem_rect_col hb
    obtain ⟨_, _, _, _, rfl⟩ := mem_rect_corner ha2
    obtain ⟨_, _, _, _, rfl⟩ := mem_rect_corner hb2
    exact Or.inl hlt

/-- Claim C8: every rectangle emitted by `find_rectangles` (either mode)
satisfies the rectangle predicate; in anchored mode the results are ordered by
ascending upper-right column then ascending lower-right row, and an anchor in
the last row or column fails with BadCorner. -/
theorem find_rectangles_correct (g : List CellInfo) (key : Option (Nat × Nat))
    (required : Nat) :
    (∀ l, find_rectangles g key required = .ok l → ∀ r ∈ l, RectPred g required r) ∧
    (∀ x y l, key = some (x, y) → find_rectangles g key required = .ok l →
      l.Pairwise rectOrder) ∧
    (∀ x y, key = some (x, y) → x < 9 → y < 9 → (x = 8 ∨ y = 8) →
      find_rectangles g key required = .error DErr.badCorner) := by
  refine ⟨?_, ?_, ?_⟩
  · intro l hok r hr
    match key with
    | some (x, y) =>
      simp only [find_rectangles] at hok
      by_cases h1 : x < 9 ∧ y < 9
      · rw [if_neg (not_not_intro h1)] at hok
        exact (one_key_pred hok hr).1
      · rw [if_pos h1] at hok
        exact absurd hok (by simp)
    | none =>
      simp only [find_rectangles] at hok
      rw [Except.ok.injEq] at hok
      subst hok
      rw [List.mem_flatMap] at hr
      obtain ⟨i, _, hr⟩ := hr
      rw [List.mem_flatMap] at hr
      obtain ⟨j, _, hr⟩ := hr
      by_cases hf : gfilled g i j = true
      · rw [if_pos hf] at hr
        simp at hr
      · rw [if_neg hf] at hr
        match hcall : find_rectangles_one_key g i j required with
        | .ok l2 =>
          rw [hcall] at hr
          exact (one_key_pred hcall hr).1
        | .error e =>
          rw [hcall] at hr
          simp at hr
  · intro x y l hkey hok
    subst hkey
    simp only [find_rectangles] at hok
    by_cases h1 : x < 9 ∧ y < 9
    · rw [if_neg (not_not_intro h1)] at hok
      exact one_key_pairwise hok
    · rw [if_pos h1] at hok
      exact absurd hok (by simp)
  · intro x y hkey hx hy hcorner
    subst hkey
    simp only [find_rectangles]
    rw [if_neg (not_not_intro ⟨hx, hy⟩)]
    unfold find_rectangles_one_key
    rw [if_pos hcorner]

/-- Claim C8 witness: concrete anchored runs on the all-unsolved empty-mask
grid (which yields no rectangles) and a last-row anchor (which is rejected). -/
theorem find_rectangles_correct_witness :
    (∀ r ∈ ([] : List Rect), RectPred (List.replicate 81 defaultCell) 0 r) ∧
    ([] : List Rect).Pairwise rectOrder ∧
    find_rectangles (List.replicate 81 defaultCell) (some (8, 0)) 0 =
      .error DErr.badCorner := by
  refine ⟨?_, ?_, ?_⟩
  · exact (find_rectangles_correct (List.replicate 81 defaultCell) (some (0, 0)) 0).1
      [] (by rfl)
  · exact (find_rectangles_correct (List.replicate 81 defaultCell) (some (0, 0)) 0).2.1
      0 0 [] rfl (by rfl)
  · exact (find_rectangles_correct (List.replicate 81 defaultCell) (some (8, 0)) 0).2.2
      8 0 rfl (by omega) (by omega) (Or.inl rfl)

/-- Claim C10: anchored `find_rectangles` on an in-range solved corner below
the last row and column returns the empty result without raising. -/
theorem find_rectangles_solved_corner (g : List CellInfo) (x y : Nat) (hx : x < 8)
    (hy : y < 8) (hf : gfilled g x y = true) (required : Nat) :
    find_rectangles g (some (x, y)) required = .ok [] := by
  simp only [find_rectangles]
  rw [if_neg (not_not_intro ⟨by omega, by omega⟩)]
  unfold find_rectangles_one_key
  rw [if_neg (by omega), if_pos hf]

/-- Grid whose only solved cell is the upper-left corner. -/
def solvedCornerGrid : List CellInfo := ⟨0, 4, 0⟩ :: List.replicate 80 defaultCell

/-- Claim C10 witness: the solved corner `(0, 0)` yields an empty result. -/
theorem find_rectangles_solved_corner_witness :
    find_rectangles solvedCornerGrid (some (0, 0)) 0 = .ok [] :=
  find_rectangles_solved_corner solvedCornerGrid 0 0 (by decide) (by decide) (by decide) 0

/- Construction and pencil-mark fill (claim C1). -/

/-- One `hi_solved += δ` update on house `h`. -/
def adjSolved (s : SState) (h : Nat) (δ : Int) : SState :=
  let hi := s.houses.getD h defaultHouse
  { s with houses := s.houses.set h { hi with solved := hi.solved + δ } }

/-- `house_adjust_solved_up`: bump the cell's row, column and box houses. -/
def houseAdjustSolvedUp (s : SState) (x y : Nat) : SState :=
  adjSolved (adjSolved (adjSolved s (x + 18) 1) (y + 9) 1) (cellAt s x y).group 1

/-- Overwrite the value slot of the cell at `(x, y)`. -/
def setCellValue (s : SState) (x y v : Nat) : SState :=
  let c := s.grid.getD (x * 9 + y) defaultCell
  { s with grid := s.grid.set (x * 9 + y) { c with value := v } }

/-- `find_clues_in_keyset`: OR together `1 << value` for every solved cell of
the keyset. -/
def find_clues_in_keyset (grid : List CellInfo) (keyset : List (Nat × Nat)) : Nat :=
  keyset.foldl
    (fun clues key =>
      if cellFilled (grid.getD (key.1 * 9 + key.2) defaultCell) then
        clues ||| (1 <<< (grid.getD (key.1 * 9 + key.2) defaultCell).value)
      else clues) 0

/-- The pencil-mark mask computed by the fill loop for an unsolved cell: the
uint16 complement, masked to TERMS, of the solved digits found among the
cell's row peers, column peers, and box keyset. -/
def fillMask (boxPeers : Nat → Nat → List (Nat × Nat)) (t : SState) (n m : Nat) : Nat :=
  ((((List.range 9).foldl (fun c z =>
        if z ≠ m ∧ filledAt t n z = true then c ||| (1 <<< valueAt t n z) else c) 0 |||
      (List.range 9).foldl (fun c z =>
        if z ≠ n ∧ filledAt t z m = true then c ||| (1 <<< valueAt t z m) else c) 0) |||
    find_clues_in_keyset t.grid (boxPeers n m)) ^^^ 65535) &&& TERMS

/-- Per-cell body of the fill loop: skip solved cells, otherwise write the
pencil-mark mask and adjust the three houses upward by the freshly written
mask (the C code re-reads CELL_CANDS after the assignment). -/
def fill_cell (boxPeers : Nat → Nat → List (Nat × Nat)) (t : SState) (n m : Nat) : SState :=
  if filledAt t n m then t
  else
    houseAdjustCand 1 (setCellCands t n m (fillMask boxPeers t n m)) n m
      (candsAt (setCellCands t n m (fillMask boxPeers t n m)) n m)

/-- One row of the fill loop. -/
def fill_row (boxPeers : Nat → Nat → List (Nat × Nat)) (t : SState) (n : Nat) : SState :=
  (List.range 9).foldl (fun t m => fill_cell boxPeers t n m) t

/-- The initial house reset of `fill_in_pencilmarks`: the C code's
`memset(self->ss_houses[n].hi_cand_count, 0, sizeof(Py_ssize_t))` (line 850)
is reproduced faithfully: it zeroes only the FIRST entry of each house's
9-entry cand-count vector (8 bytes), not the whole vector. -/
def memset_first (s : SState) : SState :=
  { s with houses := s.houses.map (fun hi => { hi with candCount := hi.candCount.set 0 0 }) }

/-- `fill_in_pencilmarks` from datamodule.c.  `boxPeers` stands for the box
keyset `peers[key][0]` of the external configuration. -/
def fill_in_pencilmarks (boxPeers : Nat → Nat → List (Nat × Nat)) (s : SState) : SState :=
  (List.range 9).foldl (fill_row boxPeers) (memset_first s)

/-- One iteration of the clue-placing loop in `data_State___init___impl`:
add the key to `ss_skeys`, write the value slot, bump the three houses'
solved counters, and record the digit. -/
def init_clue_step (t : SState) (e : (Nat × Nat) × Nat) : SState :=
  let t3 := houseAdjustSolvedUp
    (setCellValue { t with skeys := t.skeys ++ [e.1] } e.1.1 e.1.2 e.2) e.1.1 e.1.2
  { t3 with digits := t3.digits.set e.2 (t3.digits.getD e.2 0 + 1) }

/-- The state produced by `set_defaults` + zeroed houses + group installation:
all cells unsolved with empty masks, all aggregates zero. -/
def initBase (groupOf : Nat → Nat) : SState :=
  { solvedTotal := 0, digits := List.replicate 9 0, skeys := [],
    houses := List.replicate 27 defaultHouse,
    grid := (List.range 81).map (fun i => ⟨groupOf i, ERRORBIT, 0⟩) }

/-- `data_State___init___impl` restricted to its successful path: reset cells
and houses, install the group indices, place every clue, record
`ss_solved = len(clues)`, then fill pencilmarks when `dofill` is set.
`groupOf` stands for the group index assignment that `set_groups_in_cells`
derives from the configuration dictionary. -/
def state_init (clues : List ((Nat × Nat) × Nat)) (dofill : Bool)
    (groupOf : Nat → Nat) (boxPeers : Nat → Nat → List (Nat × Nat)) : SState :=
  if dofill then
    fill_in_pencilmarks boxPeers
      { clues.foldl init_clue_step (initBase groupOf) with solvedTotal := (clues.length : Int) }
  else
    { clues.foldl init_clue_step (initBase groupOf) with solvedTotal := (clues.length : Int) }

/-- Modelled from the spec: the group index assignment that the external
configuration module (engine/config, not in src/engine) produces for the
default layout, where the boxes are the standard 3x3 regions scanned in
row-major order. -/
def defaultGroupOf (i : Nat) : Nat := 3 * (i / 9 / 3) + (i % 9) / 3

/-- Modelled from the spec: the box-peer keyset `peers[key][0]` of the default
configuration computed by the external configuration module: the cells sharing
the cell's 3x3 box, excluding the cell itself. -/
def defaultBoxPeers (n m : Nat) : List (Nat × Nat) :=
  ((List.range 81).filter (fun j =>
    defaultGroupOf j = defaultGroupOf (n * 9 + m) ∧ j ≠ n * 9 + m)).map
    (fun j => (j / 9, j % 9))

/-- Every grid cell is unsolved (`CELL_FILLED` false everywhere). -/
abbrev AllUnsolved (s : SState) : Prop :=
  ∀ x, x < 9 → ∀ y, y < 9 → filledAt s x y = false

/-- The grid's group slots hold the default box layout. -/
abbrev DefaultGroups (s : SState) : Prop :=
  ∀ x, x < 9 → ∀ y, y < 9 → (cellAt s x y).group = defaultGroupOf (x * 9 + y)

lemma foldl_fix {α β : Type} (f : α → β → α) (l : List β) (x : α)
    (h : ∀ a : α, ∀ b ∈ l, f a b = a) : l.foldl f x = x := by
  induction l generalizing x with
  | nil => rfl
  | cons b tl ih =>
    rw [List.foldl_cons, h x b (List.mem_cons_self b tl)]
    exact ih x (fun a b' hb' => h a b' (List.mem_cons_of_mem b hb'))

lemma boxPeers_bounds {n m : Nat} {p : Nat × Nat} (hp : p ∈ defaultBoxPeers n m) :
    p.1 < 9 ∧ p.2 < 9 := by
  obtain ⟨j, hj, rfl⟩ := List.mem_map.mp hp
  have hj81 : j < 81 := List.mem_range.mp (List.mem_filter.mp hj).1
  exact ⟨by omega, by omega⟩

/-- On an all-unsolved grid no peer contributes a clue, so the pencil-mark
mask computed for any cell is the full mask 511. -/
lemma fillMask_all_unsolved (t : SState) (hU : AllUnsolved t) {n m : Nat}
    (hn : n < 9) (hm : m < 9) : fillMask defaultBoxPeers t n m = 511 := by
  unfold fillMask
  have h1 : (List.range 9).foldl (fun c z =>
      if z ≠ m ∧ filledAt t n z = true then c ||| (1 <<< valueAt t n z) else c) 0 = 0 :=
    foldl_fix _ _ _ (fun c z hz => by
      have hf := hU n hn z (List.mem_range.mp hz)
      simp [hf])
  have h2 : (List.range 9).foldl (fun c z =>
      if z ≠ n ∧ filledAt t z m = true then c ||| (1 <<< valueAt t z m) else c) 0 = 0 :=
    foldl_fix _ _ _ (fun c z hz => by
      have hf := hU z (List.mem_range.mp hz) m hm
      simp [hf])
  have h3 : find_clues_in_keyset t.grid (defaultBoxPeers n m) = 0 := by
    unfold find_clues_in_keyset
    refine foldl_fix _ _ _ (fun c p hp => ?_)
    obtain ⟨hp1, hp2⟩ := boxPeers_bounds hp
    have hf := hU p.1 hp1 p.2 hp2
    simp only [filledAt, cellAt] at hf
    simp only [hf]
    simp
  rw [h1, h2, h3]
  decide

lemma testBit_511 {d : Nat} (hd : d < 9) : testBit 511 d = true := testBit_TERMS hd

/-- On an all-unsolved grid the per-cell fill body always takes the unsolved
branch and writes the full mask. -/
lemma fill_cell_eq (t : SState) (hW : WF t) (hU : AllUnsolved t)
    {n m : Nat} (hn : n < 9) (hm : m < 9) :
    fill_cell defaultBoxPeers t n m =
      houseAdjustCand 1 (setCellCands t n m 511) n m 511 := by
  unfold fill_cell
  rw [if_neg (by rw [hU n hn m hm]; simp), fillMask_all_unsolved t hU hn hm,
    candsAt_setCellCands_self t 511 (by rw [hW.1]; omega)]

lemma WF_fill_cell (t : SState) (hW : WF t) (hU : AllUnsolved t)
    {n m : Nat} (hn : n < 9) (hm : m < 9) : WF (fill_cell defaultBoxPeers t n m) := by
  rw [fill_cell_eq t hW hU hn hm]
  exact WF_houseAdjustCand 1 _ (WF_setCellCands t hW n m (by decide)) n m 511

lemma filledAt_fill_cell (t : SState) (hW : WF t) (hU : AllUnsolved t)
    {n m : Nat} (hn : n < 9) (hm : m < 9) (a b : Nat) :
    filledAt (fill_cell defaultBoxPeers t n m) a b = filledAt t a b := by
  rw [fill_cell_eq t hW hU hn hm, filledAt_houseAdjustCand, filledAt_setCellCands]

lemma group_fill_cell (t : SState) (hW : WF t) (hU : AllUnsolved t)
    {n m : Nat} (hn : n < 9) (hm : m < 9) (a b : Nat) :
    (cellAt (fill_cell defaultBoxPeers t n m) a b).group = (cellAt t a b).group := by
  rw [fill_cell_eq t hW hU hn hm,
    cellAt_congr (grid_houseAdjustCand 1 (setCellCands t n m 511) n m 511),
    group_setCellCands]

lemma candsAt_fill_cell (t : SState) (hW : WF t) (hU : AllUnsolved t)
    {n m : Nat} (hn : n < 9) (hm : m < 9) {a b : Nat} (ha : a < 9) (hb : b < 9) :
    candsAt (fill_cell defaultBoxPeers t n m) a b =
      if a = n ∧ b = m then 511 else candsAt t a b := by
  rw [fill_cell_eq t hW hU hn hm, candsAt_houseAdjustCand]
  by_cases h : a = n ∧ b = m
  · obtain ⟨rfl, rfl⟩ := h
    rw [if_pos ⟨rfl, rfl⟩]
    exact candsAt_setCellCands_self t 511 (by rw [hW.1]; omega)
  · rw [if_neg h]
    unfold candsAt
    rw [cellAt_setCellCands_ne t 511 (fun he => h ⟨by omega, by omega⟩)]

/-- The contribution of filling one cell to one house's cand-count slot:
1 for each of the cell's row, column and box houses. -/
def cellHits (h n m : Nat) : Int :=
  (if h = n + 18 then 1 else 0) + (if h = m + 9 then 1 else 0) +
    (if h = defaultGroupOf (n * 9 + m) then 1 else 0)

lemma candCountAt_fill_cell (t : SState) (hW : WF t) (hU : AllUnsolved t)
    (hG : DefaultGroups t) {n m : Nat} (hn : n < 9) (hm : m < 9)
    (h' d' : Nat) (hd : d' < 9) :
    candCountAt (fill_cell defaultBoxPeers t n m) h' d' =
      candCountAt t h' d' + cellHits h' n m := by
  rw [fill_cell_eq t hW hU hn hm,
    candCountAt_houseAdjustCand (setCellCands t n m 511)
      (WF_setCellCands t hW n m (by decide)) hn hm 511 1 h' d',
    candCountAt_setCellCands,
    if_pos ⟨testBit_511 hd, hd⟩, group_setCellCands, hG n hn m hm]
  rfl

/-- Net effect of the inner (per-cell) fill loop over any list of column
indices, on an all-unsolved default-group grid. -/
lemma fill_cells_foldl {n : Nat} (hn : n < 9) (l : List Nat) :
    ∀ t : SState, WF t → AllUnsolved t → DefaultGroups t → (∀ m ∈ l, m < 9) →
      WF (l.foldl (fun u m => fill_cell defaultBoxPeers u n m) t) ∧
      AllUnsolved (l.foldl (fun u m => fill_cell defaultBoxPeers u n m) t) ∧
      DefaultGroups (l.foldl (fun u m => fill_cell defaultBoxPeers u n m) t) ∧
      (∀ h d, d < 9 →
        candCountAt (l.foldl (fun u m => fill_cell defaultBoxPeers u n m) t) h d =
          candCountAt t h d + (l.map (cellHits h n)).sum) ∧
      (∀ a b, a < 9 → b < 9 →
        candsAt (l.foldl (fun u m => fill_cell defaultBoxPeers u n m) t) a b =
          if a = n ∧ b ∈ l then 511 else candsAt t a b) := by
  induction l with
  | nil =>
    intro t hW hU hG _
    refine ⟨hW, hU, hG, ?_, ?_⟩ <;> simp
  | cons m l ih =>
    intro t hW hU hG hmem
    have hm : m < 9 := hmem m (List.mem_cons_self m l)
    have hU' : AllUnsolved (fill_cell defaultBoxPeers t n m) := by
      intro a ha b hb
      rw [filledAt_fill_cell t hW hU hn hm a b]
      exact hU a ha b hb
    have hG' : DefaultGroups (fill_cell defaultBoxPeers t n m) := by
      intro a ha b hb
      rw [group_fill_cell t hW hU hn hm a b]
      exact hG a ha b hb
    obtain ⟨W2, U2, G2, C2, A2⟩ := ih (fill_cell defaultBoxPeers t n m)
      (WF_fill_cell t hW hU hn hm) hU' hG'
      (fun m' hm' => hmem m' (List.mem_cons_of_mem m hm'))
    simp only [List.foldl_cons]
    refine ⟨W2, U2, G2, ?_, ?_⟩
    · intro h d hd
      rw [C2 h d hd, candCountAt_fill_cell t hW hU hG hn hm h d hd,
        List.map_cons, List.sum_cons]
      ring
    · intro a b ha hb
      rw [A2 a b ha hb]
      by_cases h1 : a = n ∧ b ∈ l
      · rw [if_pos h1, if_pos ⟨h1.1, List.mem_cons_of_mem m h1.2⟩]
      · rw [if_neg h1, candsAt_fill_cell t hW hU hn hm ha hb]
        by_cases h2 : a = n ∧ b = m
        · rw [if_pos h2, if_pos ⟨h2.1, h2.2 ▸ List.mem_cons_self m l⟩]
        · rw [if_neg h2, if_neg ?_]
          rintro ⟨rfl, hbm⟩
          rcases List.mem_cons.mp hbm with rfl | hbl
          · exact h2 ⟨rfl, rfl⟩
          · exact h1 ⟨rfl, hbl⟩

lemma fill_row_eq (t : SState) (n : Nat) :
    fill_row defaultBoxPeers t n =
      (List.range 9).foldl (fun u m => fill_cell defaultBoxPeers u n m) t := rfl

/-- Net effect of the outer (per-row) fill loop over any list of row indices,
on an all-unsolved default-group grid. -/
lemma fill_rows_foldl (ln : List Nat) :
    ∀ t : SState, WF t → AllUnsolved t → DefaultGroups t → (∀ n ∈ ln, n < 9) →
      WF (ln.foldl (fill_row defaultBoxPeers) t) ∧
      AllUnsolved (ln.foldl (fill_row defaultBoxPeers) t) ∧
      DefaultGroups (ln.foldl (fill_row defaultBoxPeers) t) ∧
      (∀ h d, d < 9 →
        candCountAt (ln.foldl (fill_row defaultBoxPeers) t) h d =
          candCountAt t h d +
            (ln.map (fun n => ((List.range 9).map (cellHits h n)).sum)).sum) ∧
      (∀ a b, a < 9 → b < 9 →
        candsAt (ln.foldl (fill_row defaultBoxPeers) t) a b =
          if a ∈ ln then 511 else candsAt t a b) := by
  induction ln with
  | nil =>
    intro t hW hU hG _
    refine ⟨hW, hU, hG, ?_, ?_⟩ <;> simp
  | cons n ln ih =>
    intro t hW hU hG hmem
    have hn : n < 9 := hmem n (List.mem_cons_self n ln)
    obtain ⟨W1, U1, G1, C1r, A1⟩ := fill_cells_foldl hn (List.range 9) t hW hU hG
      (fun m hm => List.mem_range.mp hm)
    rw [← fill_row_eq t n] at W1 U1 G1 C1r A1
    obtain ⟨W2, U2, G2, C2, A2⟩ := ih (fill_row defaultBoxPeers t n) W1 U1 G1
      (fun n' hn' => hmem n' (List.mem_cons_of_mem n hn'))
    simp only [List.foldl_cons]
    refine ⟨W2, U2, G2, ?_, ?_⟩
    · intro h d hd
      rw [C2 h d hd, C1r h d hd, List.map_cons, List.sum_cons]
      ring
    · intro a b ha hb
      rw [A2 a b ha hb]
      by_cases h1 : a ∈ ln
      · rw [if_pos h1, if_pos (List.mem_cons_of_mem n h1)]
      · rw [if_neg h1, A1 a b ha hb]
        by_cases h2 : a = n
        · rw [if_pos ⟨h2, List.mem_range.mpr hb⟩, if_pos (h2 ▸ List.mem_cons_self n ln)]
        · rw [if_neg (fun hc => h2 hc.1), if_neg ?_]
          rintro hcm
          rcases List.mem_cons.mp hcm with rfl | hc
          · exact h2 rfl
          · exact h1 hc

lemma getD_map_lt {α β : Type} (f : α → β) (l : List α) {i : Nat}
    (hi : i < l.length) (d : β) :
    (l.map f).getD i d = f (l.get ⟨i, hi⟩) := by
  rw [List.getD_eq_getElem _ _ (by simpa using hi), List.getElem_map]
  rfl

lemma WF_memset_first (s : SState) (hW : WF s) : WF (memset_first s) := by
  obtain ⟨h1, h2, h3, h4⟩ := hW
  refine ⟨h1, ?_, h3, ?_⟩
  · show (s.houses.map _).length = 27
    rw [List.length_map]
    exact h2
  · intro hi hmem
    obtain ⟨hi0, hmem0, rfl⟩ := List.mem_map.mp hmem
    show (hi0.candCount.set 0 0).length = 9
    rw [List.length_set]
    exact h4 hi0 hmem0

lemma allUnsolved_memset_first (s : SState) (hU : AllUnsolved s) :
    AllUnsolved (memset_first s) := by
  intro x hx y hy
  exact hU x hx y hy

lemma defaultGroups_memset_first (s : SState) (hG : DefaultGroups s) :
    DefaultGroups (memset_first s) := by
  intro x hx y hy
  exact hG x hx y hy

/-- The buggy memset zeroes only slot 0 of each house's cand-count vector. -/
lemma candCountAt_memset_first (s : SState) (hW : WF s) {h d : Nat}
    (hh : h < 27) (hd : d < 9) :
    candCountAt (memset_first s) h d = if d = 0 then 0 else candCountAt s h d := by
  have hlen : h < s.houses.length := by rw [hW.2.1]; exact hh
  have hhs : (memset_first s).houses =
      s.houses.map (fun hi => { hi with candCount := hi.candCount.set 0 0 }) := rfl
  have hcc : (s.houses.get ⟨h, hlen⟩).candCount.length = 9 :=
    hW.2.2.2 _ (List.get_mem _ _ hlen)
  unfold candCountAt
  rw [hhs, getD_map_lt _ _ hlen]
  show ((s.houses.get ⟨h, hlen⟩).candCount.set 0 0).getD d 0 = _
  by_cases hd0 : d = 0
  · subst hd0
    rw [if_pos rfl, getD_set_self _ _ _ _ (by rw [hcc]; decide)]
  · rw [if_neg hd0, getD_set_ne _ _ _ (fun he => hd0 he.symm),
      List.getD_eq_getElem _ _ hlen]
    rfl

/-- Each house contains exactly 9 cells, so one full fill pass adds 9 to
every cand-count slot. -/
lemma hits_total : ∀ h, h < 27 →
    ((List.range 9).map (fun n => ((List.range 9).map (cellHits h n)).sum)).sum = 9 := by
  decide

/-- Net effect of one whole `fill_in_pencilmarks` pass on an all-unsolved
default-group state: slot 0 of each house is reset and then recounted to 9,
every other slot is incremented by 9 on top of its stale value, and every
cell ends with the full mask 511. -/
lemma fill_pass (t : SState) (hW : WF t) (hU : AllUnsolved t) (hG : DefaultGroups t) :
    WF (fill_in_pencilmarks defaultBoxPeers t) ∧
    AllUnsolved (fill_in_pencilmarks defaultBoxPeers t) ∧
    DefaultGroups (fill_in_pencilmarks defaultBoxPeers t) ∧
    (∀ h d, h < 27 → d < 9 →
      candCountAt (fill_in_pencilmarks defaultBoxPeers t) h d =
        (if d = 0 then 0 else candCountAt t h d) + 9) ∧
    (∀ a b, a < 9 → b < 9 →
      candsAt (fill_in_pencilmarks defaultBoxPeers t) a b = 511) := by
  obtain ⟨W, U, G, C, A⟩ := fill_rows_foldl (List.range 9) (memset_first t)
    (WF_memset_first t hW) (allUnsolved_memset_first t hU)
    (defaultGroups_memset_first t hG) (fun n hn => List.mem_range.mp hn)
  refine ⟨W, U, G, ?_, ?_⟩
  · intro h d hh hd
    show candCountAt ((List.range 9).foldl (fill_row defaultBoxPeers) (memset_first t)) h d = _
    rw [C h d hd, candCountAt_memset_first t hW hh hd, hits_total h hh]
  · intro a b ha hb
    show candsAt ((List.range 9).foldl (fill_row defaultBoxPeers) (memset_first t)) a b = 511
    rw [A a b ha hb, if_pos (List.mem_range.mpr ha)]

lemma initBase_WF : WF (initBase defaultGroupOf) := by
  unfold WF
  decide

lemma initBase_allUnsolved : AllUnsolved (initBase defaultGroupOf) := by decide

lemma initBase_defaultGroups : DefaultGroups (initBase defaultGroupOf) := by decide

lemma initBase_counts : ∀ h, h < 27 → ∀ d, d < 9 →
    candCountAt (initBase defaultGroupOf) h d = 0 := by decide

/-- Claim C1 (code bug): the house candidate counters do not survive the
public `fill_pencilmarks` operation.  Construct the state with no clues and
`dofill` set: every house correctly counts 9 unsolved cells per digit.
Re-running `fill_pencilmarks` — exactly what the public refill operation
does — leaves `hi_cand_count[1]` of row house 18 at 18, although that row
still has exactly 9 unsolved cells whose candidate mask contains digit 1:
the memset in `fill_in_pencilmarks` (datamodule.c line 850) zeroes only
`hi_cand_count[0]` (`sizeof(Py_ssize_t)` bytes, not the whole vector), so
every digit other than 0 is double counted. -/
theorem fill_pencilmarks_breaks_house_counts :
    candCountAt (fill_in_pencilmarks defaultBoxPeers
      (state_init [] true defaultGroupOf defaultBoxPeers)) 18 1 = 18 ∧
    ((List.range 9).filter (fun m =>
      !filledAt (fill_in_pencilmarks defaultBoxPeers
        (state_init [] true defaultGroupOf defaultBoxPeers)) 0 m &&
      testBit (candsAt (fill_in_pencilmarks defaultBoxPeers
        (state_init [] true defaultGroupOf defaultBoxPeers)) 0 m) 1)).length = 9 := by
  have hbase : state_init [] true defaultGroupOf defaultBoxPeers =
      fill_in_pencilmarks defaultBoxPeers (initBase defaultGroupOf) := rfl
  obtain ⟨W1, U1, G1, P1, A1⟩ := fill_pass (initBase defaultGroupOf)
    initBase_WF initBase_allUnsolved initBase_defaultGroups
  obtain ⟨W2, U2, G2, P2, A2⟩ := fill_pass _ W1 U1 G1
  constructor
  · rw [hbase, P2 18 1 (by decide) (by decide), P1 18 1 (by decide) (by decide),
      initBase_counts 18 (by decide) 1 (by decide)]
    decide
  · have hfil : ∀ m ∈ List.range 9,
        (!filledAt (fill_in_pencilmarks defaultBoxPeers (fill_in_pencilmarks
            defaultBoxPeers (initBase defaultGroupOf))) 0 m &&
          testBit (candsAt (fill_in_pencilmarks defaultBoxPeers (fill_in_pencilmarks
            defaultBoxPeers (initBase defaultGroupOf))) 0 m) 1) = true := by
      intro m hm
      have hm9 : m < 9 := List.mem_range.mp hm
      rw [U2 0 (by decide) m hm9, A2 0 m (by decide) hm9]
      decide
    rw [hbase, List.filter_eq_self.mpr hfil, List.length_range]

/-- Claim C7 witness: concrete run on the all-unsolved empty-mask grid. -/
theorem order_exactly_n_correct_witness :
    ((0 : Int) < 0 ∨ 9 ≤ (0 : Int) →
      order_exactly_n (List.replicate 81 defaultCell) 0 = .error .badCount) ∧
    (0 ≤ (0 : Int) → (0 : Int) < 9 →
      order_exactly_n (List.replicate 81 defaultCell) 0 =
        .ok (exactlyNSpec (List.replicate 81 defaultCell) 0)) :=
  order_exactly_n_correct (List.replicate 81 defaultCell) 0
    (fun c hc => by rw [List.eq_of_mem_replicate hc]; decide)

/- C9: `data_State_order_random_impl`. -/

/-- The probe recurrence of `order_random`'s second loop:
`key = ((key << 2) + key + 1) & 127`. -/
def lcg (k : Nat) : Nat := ((k <<< 2) + k + 1) &&& 127

/-- A grid index holds an unsolved cell (ERRORBIT set in its value). -/
def unsolvedCell (grid : List CellInfo) (k : Nat) : Bool :=
  !cellFilled (grid.getD k defaultCell)

/-- The first loop of `order_random`: probe `tries[i] % 81`, skipping seen
keys, marking seen, skipping solved cells, collecting unsolved ones, and
breaking as soon as `found == Py_SIZE(ki)`.  Returns the final
`(key, seen, data)`. -/
def phaseA (grid : List CellInfo) (size : Nat) :
    List Nat → Nat → List Bool → List Nat → Nat × List Bool × List Nat
  | [], key, seen, data => (key, seen, data)
  | b :: rest, key, seen, data =>
    if seen.getD (b % 81) false then phaseA grid size rest (b % 81) seen data
    else if cellFilled (grid.getD (b % 81) defaultCell) then
      phaseA grid size rest (b % 81) (seen.set (b % 81) true) data
    else if (data ++ [b % 81]).length = size then
      (b % 81, seen.set (b % 81) true, data ++ [b % 81])
    else phaseA grid size rest (b % 81) (seen.set (b % 81) true) (data ++ [b % 81])

/-- The second loop of `order_random`: while `found < Py_SIZE(ki)`, advance
the key by the probe recurrence and skip keys that are out of range, seen,
or solved.  The unbounded C `while` loop is run on explicit fuel; `none`
models non-termination within the given fuel. -/
def phaseB (grid : List CellInfo) (size : Nat) :
    Nat → Nat → List Bool → List Nat → Option (List Nat)
  | 0, _, _, data => if data.length < size then none else some data
  | fuel + 1, key, seen, data =>
    if data.length < size then
      if 81 ≤ lcg key then phaseB grid size fuel (lcg key) seen data
      else if seen.getD (lcg key) false then phaseB grid size fuel (lcg key) seen data
      else if cellFilled (grid.getD (lcg key) defaultCell) then
        phaseB grid size fuel (lcg key) (seen.set (lcg key) true) data
      else phaseB grid size fuel (lcg key) (seen.set (lcg key) true) (data ++ [lcg key])
    else some data

/-- `data_State_order_random_impl`: `size` stands for
`Py_SIZE(ki) = GRIDSIZE - ss_solved`, `tries` for the `numtries` bytes read
from the operating system's random source.  `seen` starts all false, `key`
starts at 0, and an empty iterator is returned at once when `size` is 0.
The while loop gets fuel `128 * 81`; the correctness theorem shows this
fuel is never exhausted, which is the claimed termination. -/
def order_random (grid : List CellInfo) (size : Nat) (tries : List Nat) :
    Option (List Nat) :=
  if size = 0 then some []
  else
    phaseB grid size (128 * 81)
      (phaseA grid size tries 0 (List.replicate 81 false) []).1
      (phaseA grid size tries 0 (List.replicate 81 false) []).2.1
      (phaseA grid size tries 0 (List.replicate 81 false) []).2.2

/-- Loop invariant shared by both loops: `seen` has 81 slots, the collected
keys are distinct unsolved in-range keys that are all marked seen, and every
seen unsolved key has been collected. -/
def Inv (grid : List CellInfo) (seen : List Bool) (data : List Nat) : Prop :=
  seen.length = 81 ∧ data.Nodup ∧
  (∀ k ∈ data, k < 81 ∧ unsolvedCell grid k = true ∧ seen.getD k false = true) ∧
  (∀ k, k < 81 → seen.getD k false = true → unsolvedCell grid k = true → k ∈ data)

lemma Inv_mark_skip {grid : List CellInfo} {seen : List Bool} {data : List Nat}
    {k : Nat} (hInv : Inv grid seen data) (hk : k < 81)
    (hsol : unsolvedCell grid k = false) : Inv grid (seen.set k true) data := by
  obtain ⟨hlen, hnd, hmem, hcomp⟩ := hInv
  refine ⟨by rw [List.length_set]; exact hlen, hnd, ?_, ?_⟩
  · intro j hj
    obtain ⟨h1, h2, h3⟩ := hmem j hj
    refine ⟨h1, h2, ?_⟩
    by_cases hjk : k = j
    · subst hjk
      exact getD_set_self _ _ _ _ (by rw [hlen]; exact hk)
    · rw [getD_set_ne _ _ _ hjk]
      exact h3
  · intro j hj hs hu
    by_cases hjk : k = j
    · subst hjk
      rw [hsol] at hu
      exact Bool.noConfusion hu
    · rw [getD_set_ne _ _ _ hjk] at hs
      exact hcomp j hj hs hu

lemma Inv_mark_add {grid : List CellInfo} {seen : List Bool} {data : List Nat}
    {k : Nat} (hInv : Inv grid seen data) (hk : k < 81)
    (hseen : seen.getD k false = false) (huns : unsolvedCell grid k = true) :
    Inv grid (seen.set k true) (data ++ [k]) := by
  obtain ⟨hlen, hnd, hmem, hcomp⟩ := hInv
  have hknot : k ∉ data := by
    intro hkd
    have h := (hmem k hkd).2.2
    rw [hseen] at h
    exact Bool.noConfusion h
  refine ⟨by rw [List.length_set]; exact hlen, ?_, ?_, ?_⟩
  · rw [List.nodup_append]
    exact ⟨hnd, List.nodup_singleton k,
      fun a ha hak => hknot ((List.mem_singleton.mp hak) ▸ ha)⟩
  · intro j hj
    rcases List.mem_append.mp hj with hjd | hjk
    · obtain ⟨h1, h2, h3⟩ := hmem j hjd
      refine ⟨h1, h2, ?_⟩
      by_cases hkj : k = j
      · subst hkj
        exact getD_set_self _ _ _ _ (by rw [hlen]; exact hk)
      · rw [getD_set_ne _ _ _ hkj]
        exact h3
    · rw [List.mem_singleton.mp hjk]
      exact ⟨hk, huns, getD_set_self _ _ _ _ (by rw [hlen]; exact hk)⟩
  · intro j hj hs hu
    by_cases hkj : k = j
    · subst hkj
      exact List.mem_append_right _ (List.mem_singleton.mpr rfl)
    · rw [getD_set_ne _ _ _ hkj] at hs
      exact List.mem_append_left _ (hcomp j hj hs hu)

lemma data_length_le (grid : List CellInfo) (seen : List Bool) (data : List Nat)
    (hInv : Inv grid seen data) :
    data.length ≤ ((List.range 81).filter (unsolvedCell grid)).length := by
  obtain ⟨-, hnd, hmem, -⟩ := hInv
  have hsub : data.toFinset ⊆ ((List.range 81).filter (unsolvedCell grid)).toFinset := by
    intro k hk
    rw [List.mem_toFinset] at hk
    rw [List.mem_toFinset, List.mem_filter, List.mem_range]
    exact ⟨(hmem k hk).1, (hmem k hk).2.1⟩
  calc data.length = data.toFinset.card := (List.toFinset_card_of_nodup hnd).symm
    _ ≤ ((List.range 81).filter (unsolvedCell grid)).toFinset.card :=
        Finset.card_le_card hsub
    _ ≤ _ := List.toFinset_card_le _

lemma collected_all (grid : List CellInfo) (seen : List Bool) (data : List Nat)
    (hInv : Inv grid seen data)
    (hge : ((List.range 81).filter (unsolvedCell grid)).length ≤ data.length) :
    ∀ j, j < 81 → unsolvedCell grid j = true → j ∈ data := by
  obtain ⟨-, hnd, hmem, -⟩ := hInv
  have hndU : ((List.range 81).filter (unsolvedCell grid)).Nodup :=
    (List.nodup_range 81).filter _
  have hsub : data.toFinset ⊆ ((List.range 81).filter (unsolvedCell grid)).toFinset := by
    intro k hk
    rw [List.mem_toFinset] at hk
    rw [List.mem_toFinset, List.mem_filter, List.mem_range]
    exact ⟨(hmem k hk).1, (hmem k hk).2.1⟩
  have hcard : ((List.range 81).filter (unsolvedCell grid)).toFinset.card ≤
      data.toFinset.card := by
    rw [List.toFinset_card_of_nodup hnd, List.toFinset_card_of_nodup hndU]
    exact hge
  have heq := Finset.eq_of_subset_of_card_le hsub hcard
  intro j hj hu
  have hjU : j ∈ ((List.range 81).filter (unsolvedCell grid)).toFinset := by
    rw [List.mem_toFinset, List.mem_filter, List.mem_range]
    exact ⟨hj, hu⟩
  rw [← heq, List.mem_toFinset] at hjU
  exact hjU

lemma exists_unseen (grid : List CellInfo) (seen : List Bool) (data : List Nat)
    (hInv : Inv grid seen data)
    (hlt : data.length < ((List.range 81).filter (unsolvedCell grid)).length) :
    ∃ j, j < 81 ∧ unsolvedCell grid j = true ∧ seen.getD j false = false := by
  by_contra hno
  push_neg at hno
  obtain ⟨-, hnd, -, hcomp⟩ := hInv
  have hsubU : ∀ j ∈ (List.range 81).filter (unsolvedCell grid), j ∈ data := by
    intro j hj
    rw [List.mem_filter, List.mem_range] at hj
    have hs : seen.getD j false = true := by
      cases hb : seen.getD j false
      · exact absurd hb (hno j hj.1 hj.2)
      · rfl
    exact hcomp j hj.1 hs hj.2
  have hndU : ((List.range 81).filter (unsolvedCell grid)).Nodup :=
    (List.nodup_range 81).filter _
  have hsub : ((List.range 81).filter (unsolvedCell grid)).toFinset ⊆ data.toFinset := by
    intro k hk
    rw [List.mem_toFinset] at hk
    rw [List.mem_toFinset]
    exact hsubU k hk
  have : ((List.range 81).filter (unsolvedCell grid)).length ≤ data.length := by
    calc ((List.range 81).filter (unsolvedCell grid)).length
        = ((List.range 81).filter (unsolvedCell grid)).toFinset.card :=
          (List.toFinset_card_of_nodup hndU).symm
      _ ≤ data.toFinset.card := Finset.card_le_card hsub
      _ ≤ data.length := List.toFinset_card_le _
  omega

lemma lcg_lt (k : Nat) : lcg k < 128 := by
  have h : ((k <<< 2) + k + 1) &&& 127 ≤ 127 := Nat.and_le_right
  unfold lcg
  omega

/-- The probe sequence started at 0, listed for one whole period. -/
def lcgOrbitList : List Nat :=
  [0, 1, 6, 31, 28, 13, 66, 75, 120, 89, 62, 55, 20, 101, 122, 99, 112, 49,
   118, 79, 12, 61, 50, 123, 104, 9, 46, 103, 4, 21, 106, 19, 96, 97, 102,
   127, 124, 109, 34, 43, 88, 57, 30, 23, 116, 69, 90, 67, 80, 17, 86, 47,
   108, 29, 18, 91, 72, 105, 14, 71, 100, 117, 74, 115, 64, 65, 70, 95, 92,
   77, 2, 11, 56, 25, 126, 119, 84, 37, 58, 35, 48, 113, 54, 15, 76, 125,
   114, 59, 40, 73, 110, 39, 68, 85, 42, 83, 32, 33, 38, 63, 60, 45, 98,
   107, 24, 121, 94, 87, 52, 5, 26, 3, 16, 81, 22, 111, 44, 93, 82, 27, 8,
   41, 78, 7, 36, 53, 10, 51]

lemma lcgOrbit_eval : (List.range 128).map (fun n => lcg^[n] 0) = lcgOrbitList := by
  decide

lemma lcgOrbit_complete : ∀ a ∈ List.range 128, a ∈ lcgOrbitList := by decide

lemma lcg_period : lcg^[128] 0 = 0 := by decide

lemma lcg_mem0 : ∀ b, b < 128 → ∃ i, i < 128 ∧ lcg^[i] 0 = b := by
  intro b hb
  have hmem : b ∈ (List.range 128).map (fun n => lcg^[n] 0) := by
    rw [lcgOrbit_eval]
    exact lcgOrbit_complete b (List.mem_range.mpr hb)
  obtain ⟨i, hi, he⟩ := List.mem_map.mp hmem
  exact ⟨i, List.mem_range.mp hi, he⟩

lemma lcg_iterate_period (m : Nat) : lcg^[m + 128] 0 = lcg^[m] 0 := by
  rw [Function.iterate_add_apply, lcg_period]

/-- The probe recurrence is a single 128-cycle: from any start it reaches
any residue within 128 steps. -/
lemma lcg_cover {a b : Nat} (ha : a < 128) (hb : b < 128) :
    ∃ n, n < 128 ∧ lcg^[n + 1] a = b := by
  obtain ⟨i, hi, hia⟩ := lcg_mem0 a ha
  obtain ⟨j, hj, hjb⟩ := lcg_mem0 b hb
  by_cases hle : i + 1 ≤ j
  · refine ⟨j - (i + 1), by omega, ?_⟩
    rw [← hia, ← Function.iterate_add_apply]
    have he : j - (i + 1) + 1 + i = j := by omega
    rw [he, hjb]
  · refine ⟨j + 128 - (i + 1), by omega, ?_⟩
    rw [← hia, ← Function.iterate_add_apply]
    have he : j + 128 - (i + 1) + 1 + i = j + 128 := by omega
    rw [he, lcg_iterate_period, hjb]

lemma phaseA_post (grid : List CellInfo) (size : Nat) :
    ∀ (tries : List Nat) (key : Nat) (seen : List Bool) (data : List Nat),
      Inv grid seen data → data.length < size → key < 128 →
      Inv grid (phaseA grid size tries key seen data).2.1
        (phaseA grid size tries key seen data).2.2 ∧
      (phaseA grid size tries key seen data).2.2.length ≤ size ∧
      (phaseA grid size tries key seen data).1 < 128 := by
  intro tries
  induction tries with
  | nil =>
    intro key seen data hInv hlt hkey
    exact ⟨hInv, Nat.le_of_lt hlt, hkey⟩
  | cons b rest ih =>
    intro key seen data hInv hlt hkey
    have hb81 : b % 81 < 81 := Nat.mod_lt _ (by decide)
    simp only [phaseA]
    by_cases h1 : seen.getD (b % 81) false = true
    · rw [if_pos h1]
      exact ih (b % 81) seen data hInv hlt (by omega)
    · have h1' : seen.getD (b % 81) false = false := by
        cases hx : seen.getD (b % 81) false
        · rfl
        · exact absurd hx h1
      rw [if_neg h1]
      by_cases h2 : cellFilled (grid.getD (b % 81) defaultCell) = true
      · rw [if_pos h2]
        have hsol : unsolvedCell grid (b % 81) = false := by
          unfold unsolvedCell
          rw [h2]
          rfl
        exact ih (b % 81) (seen.set (b % 81) true) data
          (Inv_mark_skip hInv hb81 hsol) hlt (by omega)
      · have h2' : cellFilled (grid.getD (b % 81) defaultCell) = false := by
          cases hx : cellFilled (grid.getD (b % 81) defaultCell)
          · rfl
          · exact absurd hx h2
        rw [if_neg h2]
        have huns : unsolvedCell grid (b % 81) = true := by
          unfold unsolvedCell
          rw [h2']
          rfl
        by_cases h3 : (data ++ [b % 81]).length = size
        · rw [if_pos h3]
          exact ⟨Inv_mark_add hInv hb81 h1' huns, Nat.le_of_eq h3, by omega⟩
        · rw [if_neg h3]
          have hlen3 : (data ++ [b % 81]).length = data.length + 1 := by simp
          exact ih (b % 81) (seen.set (b % 81) true) (data ++ [b % 81])
            (Inv_mark_add hInv hb81 h1' huns) (by omega) (by omega)

lemma phaseB_exit (grid : List CellInfo) (size fuel key : Nat)
    (seen : List Bool) (data : List Nat) (h : ¬data.length < size) :
    phaseB grid size fuel key seen data = some data := by
  cases fuel with
  | zero =>
    simp only [phaseB]
    rw [if_neg h]
  | succ f =>
    simp only [phaseB]
    rw [if_neg h]

lemma phaseB_step_skip81 (grid : List CellInfo) (size f key : Nat)
    (seen : List Bool) (data : List Nat) (hlt : data.length < size)
    (h81 : 81 ≤ lcg key) :
    phaseB grid size (f + 1) key seen data = phaseB grid size f (lcg key) seen data := by
  simp only [phaseB]
  rw [if_pos hlt, if_pos h81]

lemma phaseB_step_seen (grid : List CellInfo) (size f key : Nat)
    (seen : List Bool) (data : List Nat) (hlt : data.length < size)
    (h81 : ¬81 ≤ lcg key) (hs : seen.getD (lcg key) false = true) :
    phaseB grid size (f + 1) key seen data = phaseB grid size f (lcg key) seen data := by
  simp only [phaseB]
  rw [if_pos hlt, if_neg h81, if_pos hs]

lemma phaseB_step_solved (grid : List CellInfo) (size f key : Nat)
    (seen : List Bool) (data : List Nat) (hlt : data.length < size)
    (h81 : ¬81 ≤ lcg key) (hs : seen.getD (lcg key) false = false)
    (hc : cellFilled (grid.getD (lcg key) defaultCell) = true) :
    phaseB grid size (f + 1) key seen data =
      phaseB grid size f (lcg key) (seen.set (lcg key) true) data := by
  simp only [phaseB]
  rw [if_pos hlt, if_neg h81, if_neg (by rw [hs]; simp), if_pos hc]

lemma phaseB_step_add (grid : List CellInfo) (size f key : Nat)
    (seen : List Bool) (data : List Nat) (hlt : data.length < size)
    (h81 : ¬81 ≤ lcg key) (hs : seen.getD (lcg key) false = false)
    (hc : cellFilled (grid.getD (lcg key) defaultCell) = false) :
    phaseB grid size (f + 1) key seen data =
      phaseB grid size f (lcg key) (seen.set (lcg key) true) (data ++ [lcg key]) := by
  simp only [phaseB]
  rw [if_pos hlt, if_neg h81, if_neg (by rw [hs]; simp), if_neg (by rw [hc]; simp)]

/-- As long as an unseen unsolved key lies `n + 1` probe steps ahead, the
while loop collects a new key within those steps. -/
lemma phaseB_progress (grid : List CellInfo) (size : Nat) :
    ∀ n key : Nat, ∀ seen : List Bool, ∀ data : List Nat, ∀ fuel : Nat,
      Inv grid seen data → data.length < size →
      lcg^[n + 1] key < 81 → unsolvedCell grid (lcg^[n + 1] key) = true →
      seen.getD (lcg^[n + 1] key) false = false → n + 1 ≤ fuel →
      ∃ fuel' key' seen' data',
        phaseB grid size fuel key seen data = phaseB grid size fuel' key' seen' data' ∧
        Inv grid seen' data' ∧ data.length < data'.length ∧ data'.length ≤ size ∧
        fuel ≤ fuel' + (n + 1) ∧ key' < 128 := by
  intro n
  induction n with
  | zero =>
    intro key seen data fuel hInv hlt h81 hu hs hfuel
    obtain ⟨f, rfl⟩ : ∃ f, fuel = f + 1 := ⟨fuel - 1, by omega⟩
    simp only [Nat.zero_add, Function.iterate_one] at h81 hu hs
    have hcf : cellFilled (grid.getD (lcg key) defaultCell) = false := by
      unfold unsolvedCell at hu
      cases hc : cellFilled (grid.getD (lcg key) defaultCell)
      · rfl
      · rw [hc] at hu
        exact absurd hu (by simp)
    have hlen : (data ++ [lcg key]).length = data.length + 1 := by simp
    exact ⟨f, lcg key, seen.set (lcg key) true, data ++ [lcg key],
      phaseB_step_add grid size f key seen data hlt (by omega) hs hcf,
      Inv_mark_add hInv h81 hs hu, by omega, by omega, by omega, lcg_lt key⟩
  | succ n ih =>
    intro key seen data fuel hInv hlt h81 hu hs hfuel
    obtain ⟨f, rfl⟩ : ∃ f, fuel = f + 1 := ⟨fuel - 1, by omega⟩
    rw [Function.iterate_succ_apply] at h81 hu hs
    by_cases hA : 81 ≤ lcg key
    · obtain ⟨fuel', key', seen', data', heq, hI, hg, hl, hfu, hk⟩ :=
        ih (lcg key) seen data f hInv hlt h81 hu hs (by omega)
      exact ⟨fuel', key', seen', data',
        (phaseB_step_skip81 grid size f key seen data hlt hA).trans heq,
        hI, hg, hl, by omega, hk⟩
    · by_cases hB : seen.getD (lcg key) false = true
      · obtain ⟨fuel', key', seen', data', heq, hI, hg, hl, hfu, hk⟩ :=
          ih (lcg key) seen data f hInv hlt h81 hu hs (by omega)
        exact ⟨fuel', key', seen', data',
          (phaseB_step_seen grid size f key seen data hlt hA hB).trans heq,
          hI, hg, hl, by omega, hk⟩
      · have hB' : seen.getD (lcg key) false = false := by
          cases hx : seen.getD (lcg key) false
          · rfl
          · exact absurd hx hB
        by_cases hC : cellFilled (grid.getD (lcg key) defaultCell) = true
        · have hk81 : lcg key < 81 := by omega
          have hsol : unsolvedCell grid (lcg key) = false := by
            unfold unsolvedCell
            rw [hC]
            rfl
          have hne : lcg key ≠ lcg^[n + 1] (lcg key) := by
            intro he
            rw [← he, hsol] at hu
            exact Bool.noConfusion hu
          obtain ⟨fuel', key', seen', data', heq, hI, hg, hl, hfu, hk⟩ :=
            ih (lcg key) (seen.set (lcg key) true) data f
              (Inv_mark_skip hInv hk81 hsol) hlt h81 hu
              (by rw [getD_set_ne _ _ _ hne]; exact hs) (by omega)
          exact ⟨fuel', key', seen', data',
            (phaseB_step_solved grid size f key seen data hlt hA hB' hC).trans heq,
            hI, hg, hl, by omega, hk⟩
        · have hC' : cellFilled (grid.getD (lcg key) defaultCell) = false := by
            cases hx : cellFilled (grid.getD (lcg key) defaultCell)
            · rfl
            · exact absurd hx hC
          have hk81 : lcg key < 81 := by omega
          have huns : unsolvedCell grid (lcg key) = true := by
            unfold unsolvedCell
            rw [hC']
            rfl
          have hlen : (data ++ [lcg key]).length = data.length + 1 := by simp
          exact ⟨f, lcg key, seen.set (lcg key) true, data ++ [lcg key],
            phaseB_step_add grid size f key seen data hlt hA hB' hC',
            Inv_mark_add hInv hk81 hB' huns, by omega, by omega, by omega, lcg_lt key⟩

lemma phaseB_final (grid : List CellInfo) (size : Nat)
    (hsize : ((List.range 81).filter (unsolvedCell grid)).length = size)
    (fuel key : Nat) (seen : List Bool) (data : List Nat)
    (hInv : Inv grid seen data) (hge : ¬data.length < size) :
    ∃ data', phaseB grid size fuel key seen data = some data' ∧
      data'.length = size ∧ data'.Nodup ∧
      (∀ k ∈ data', k < 81 ∧ unsolvedCell grid k = true) ∧
      (∀ j, j < 81 → unsolvedCell grid j = true → j ∈ data') := by
  have h1 := data_length_le grid seen data hInv
  rw [hsize] at h1
  refine ⟨data, phaseB_exit grid size fuel key seen data hge, by omega, hInv.2.1,
    fun k hk => ⟨(hInv.2.2.1 k hk).1, (hInv.2.2.1 k hk).2.1⟩, ?_⟩
  exact collected_all grid seen data hInv (by omega)

lemma phaseB_terminates (grid : List CellInfo) (size : Nat)
    (hsize : ((List.range 81).filter (unsolvedCell grid)).length = size) :
    ∀ gas fuel key : Nat, ∀ seen : List Bool, ∀ data : List Nat,
      Inv grid seen data → size ≤ data.length + gas → 128 * gas ≤ fuel → key < 128 →
      ∃ data', phaseB grid size fuel key seen data = some data' ∧
        data'.length = size ∧ data'.Nodup ∧
        (∀ k ∈ data', k < 81 ∧ unsolvedCell grid k = true) ∧
        (∀ j, j < 81 → unsolvedCell grid j = true → j ∈ data') := by
  intro gas
  induction gas with
  | zero =>
    intro fuel key seen data hInv hle _ _
    exact phaseB_final grid size hsize fuel key seen data hInv (by omega)
  | succ gas ih =>
    intro fuel key seen data hInv hle hfuel hkey
    by_cases hlt : data.length < size
    · obtain ⟨j, hj81, hju, hjs⟩ := exists_unseen grid seen data hInv (by omega)
      obtain ⟨n, hn, hreach⟩ := lcg_cover hkey (show j < 128 by omega)
      obtain ⟨fuel', key', seen', data', heq, hInv', hgrow, hle', hfuel', hkey'⟩ :=
        phaseB_progress grid size n key seen data fuel hInv hlt
          (by rw [hreach]; exact hj81) (by rw [hreach]; exact hju)
          (by rw [hreach]; exact hjs) (by omega)
      obtain ⟨data2, heq2, hprops⟩ := ih fuel' key' seen' data' hInv' (by omega)
        (by omega) hkey'
      exact ⟨data2, heq.trans heq2, hprops⟩
    · exact phaseB_final grid size hsize fuel key seen data hInv hlt

lemma getD_replicate_false (j : Nat) :
    (List.replicate 81 false).getD j false = false := by
  rw [List.getD_eq_getElem?_getD, List.getElem?_replicate]
  by_cases h : j < 81 <;> simp [h]

/-- Claim C9: when `Py_SIZE(ki)` (that is, `GRIDSIZE - ss_solved`) equals
the number of unsolved grid cells, `order_random` terminates and the keys
it hands to the iterator are exactly `size` pairwise distinct in-range
unsolved cells, covering every unsolved cell — for every grid and every
content of the random byte buffer. -/
theorem order_random_correct (grid : List CellInfo) (size : Nat) (tries : List Nat)
    (hsize : ((List.range 81).filter (unsolvedCell grid)).length = size) :
    ∃ data, order_random grid size tries = some data ∧
      data.length = size ∧ data.Nodup ∧
      (∀ k ∈ data, k < 81 ∧ unsolvedCell grid k = true) ∧
      (∀ j, j < 81 → unsolvedCell grid j = true → j ∈ data) := by
  unfold order_random
  by_cases h0 : size = 0
  · rw [if_pos h0]
    refine ⟨[], rfl, by rw [h0]; rfl, List.nodup_nil, by simp, ?_⟩
    intro j hj hu
    have hU : (List.range 81).filter (unsolvedCell grid) = [] :=
      List.eq_nil_of_length_eq_zero (by rw [hsize, h0])
    have hjU : j ∈ (List.range 81).filter (unsolvedCell grid) := by
      rw [List.mem_filter, List.mem_range]
      exact ⟨hj, hu⟩
    rw [hU] at hjU
    exact absurd hjU (List.not_mem_nil j)
  · rw [if_neg h0]
    have hInv0 : Inv grid (List.replicate 81 false) [] := by
      refine ⟨by simp, List.nodup_nil, by simp, ?_⟩
      intro j hj hs hu
      rw [getD_replicate_false] at hs
      exact Bool.noConfusion hs
    obtain ⟨hInvA, hlenA, hkeyA⟩ := phaseA_post grid size tries 0
      (List.replicate 81 false) [] hInv0 (by simp only [List.length_nil]; omega) (by decide)
    have hs81 : size ≤ 81 := by
      have h := List.length_filter_le (unsolvedCell grid) (List.range 81)
      rw [List.length_range] at h
      omega
    exact phaseB_terminates grid size hsize size (128 * 81) _ _ _ hInvA
      (by omega) (by omega) hkeyA

/-- Claim C9 witness: the all-unsolved grid with an empty random buffer. -/
theorem order_random_correct_witness :
    ((List.range 81).filter (unsolvedCell (List.replicate 81 defaultCell))).length = 81 ∧
    ∃ data, order_random (List.replicate 81 defaultCell) 81 [] = some data ∧
      data.length = 81 ∧ data.Nodup ∧
      (∀ k ∈ data, k < 81 ∧ unsolvedCell (List.replicate 81 defaultCell) k = true) ∧
      (∀ j, j < 81 → unsolvedCell (List.replicate 81 defaultCell) j = true → j ∈ data) :=
  ⟨by decide, order_random_correct (List.replicate 81 defaultCell) 81 [] (by decide)⟩


end Sudoku
